import Mathlib

/-!
The alert_json logger: the event encoder and the sink.

A shallow embedding of `src/alert_json.cc`: the `PairWriter` helper, the
function template `pack_event`, the part of the rapidjson writers
(`Writer`, `PrettyWriter` over a `StringBuffer`) that `pack_event` drives,
the module `JsonModule` and the logger `JsonLogger`.

Text is a list of characters.  The rapidjson writers work on the bytes of a
UTF-8 string and copy every byte from `0x80` upwards unchanged, so applying
their per-byte rules per character gives the same text.
-/

namespace AlertJson

/-- Text: the contents of a C string (without the terminating NUL), of the
`StringBuffer`, and of a stream. -/
abbrev Text := List Char

/-! ## rapidjson: `Writer` and `PrettyWriter` over a `StringBuffer` -/

namespace rapidjson

/-- The value kinds `Prefix` is told about (`rapidjson::Type`). -/
inductive ValueType
  | kNullType | kFalseType | kTrueType | kObjectType | kArrayType | kStringType | kNumberType
  deriving DecidableEq, Repr

/-- One entry of the writer's level stack (`Writer::Level`). -/
structure Level where
  valueCount : Nat
  inArray : Bool
  deriving DecidableEq, Repr

/-- The state of a `Writer<StringBuffer>` (and of a `PrettyWriter`, which
derives from it): the buffer it writes to, the level stack (top first) and the
`hasRoot_` flag. -/
structure Writer where
  os : Text
  level_stack : List Level
  hasRoot : Bool
  deriving DecidableEq, Repr

/-- A writer freshly constructed on an empty `StringBuffer`. -/
def Writer.new : Writer := { os := [], level_stack := [], hasRoot := false }

/-- The table `hexDigits` of `WriteString`. -/
def hexDigits (i : Nat) : Char :=
  match i with
  | 0 => '0' | 1 => '1' | 2 => '2' | 3 => '3' | 4 => '4' | 5 => '5' | 6 => '6' | 7 => '7'
  | 8 => '8' | 9 => '9' | 10 => 'A' | 11 => 'B' | 12 => 'C' | 13 => 'D' | 14 => 'E' | _ => 'F'

/-- The table `escape` of `WriteString`: `none` stands for the entry 0 (the
character is copied), `some 'u'` for a `\u00XX` escape, any other `some e`
for the two-character escape `\e`. -/
def escape (c : Char) : Option Char :=
  if c.toNat < 32 then
    some (if c.toNat = 8 then 'b' else if c.toNat = 9 then 't' else if c.toNat = 10 then 'n'
      else if c.toNat = 12 then 'f' else if c.toNat = 13 then 'r' else 'u')
  else if c = '"' then some '"'
  else if c = '\\' then some '\\'
  else none

/-- What the loop of `WriteString` puts out for one character of the string. -/
def WriteChar (c : Char) : Text :=
  match escape c with
  | none => [c]
  | some e =>
    if e = 'u' then ['\\', 'u', '0', '0', hexDigits (c.toNat / 16), hexDigits (c.toNat % 16)]
    else ['\\', e]

/-- `Writer::WriteString`: an opening quote, every character through the
escape table, a closing quote. -/
def WriteString (str : Text) : Text :=
  '"' :: (str.flatMap WriteChar ++ ['"'])

/-- The digit loop of `u32toa`, most significant digit first; ten rounds are
enough for a 32-bit value. -/
def u32toaAux : Nat → Nat → Text → Text
  | 0, _, acc => acc
  | fuel + 1, n, acc =>
    if n < 10 then hexDigits n :: acc
    else u32toaAux fuel (n / 10) (hexDigits (n % 10) :: acc)

/-- `internal::u32toa`: the decimal digits of a 32-bit unsigned value, no
leading zero. -/
def u32toa (u : Nat) : Text := u32toaAux 10 u []

/-- `Writer::WriteUint`. -/
def WriteUint (u : Nat) : Text := u32toa u

/-- `Writer::WriteBool`. -/
def WriteBool (b : Bool) : Text :=
  if b then ['t', 'r', 'u', 'e'] else ['f', 'a', 'l', 's', 'e']

/-- `Writer::Prefix`: inside an object a comma goes before every key but the
first and a colon before every value; a key must be a string; at the root
only one value may be written.  A failed `RAPIDJSON_ASSERT` is `none`. -/
def Writer.Prefix (w : Writer) (type : ValueType) : Option Writer :=
  match w.level_stack with
  | level :: below =>
    let os1 :=
      if level.valueCount > 0 then
        if level.inArray then w.os ++ [',']
        else w.os ++ [if level.valueCount % 2 = 0 then ',' else ':']
      else w.os
    if !level.inArray ∧ level.valueCount % 2 = 0 ∧ type ≠ ValueType.kStringType then none
    else some { w with os := os1,
                       level_stack := { level with valueCount := level.valueCount + 1 } :: below }
  | [] =>
    if w.hasRoot then none else some { w with hasRoot := true }

/-- `Writer::StartObject`. -/
def Writer.StartObject (w : Writer) : Option Writer := do
  let w1 ← w.Prefix ValueType.kObjectType
  pure { w1 with level_stack := { valueCount := 0, inArray := false } :: w1.level_stack,
                 os := w1.os ++ ['{'] }

/-- `Writer::String(const Ch*)`, also reached through `Writer::Key`. -/
def Writer.String (w : Writer) (str : Text) : Option Writer := do
  let w1 ← w.Prefix ValueType.kStringType
  pure { w1 with os := w1.os ++ WriteString str }

/-- `Writer::Key`. -/
def Writer.Key (w : Writer) (str : Text) : Option Writer := w.String str

/-- `Writer::Uint`. -/
def Writer.Uint (w : Writer) (u : Nat) : Option Writer := do
  let w1 ← w.Prefix ValueType.kNumberType
  pure { w1 with os := w1.os ++ WriteUint u }

/-- `Writer::Bool`. -/
def Writer.Bool (w : Writer) (b : Bool) : Option Writer := do
  let w1 ← w.Prefix (if b then ValueType.kTrueType else ValueType.kFalseType)
  pure { w1 with os := w1.os ++ WriteBool b }

/-- `Writer::EndObject`: the top level must be an object holding complete
key/value pairs. -/
def Writer.EndObject (w : Writer) : Option Writer :=
  match w.level_stack with
  | [] => none
  | level :: below =>
    if level.inArray ∨ level.valueCount % 2 ≠ 0 then none
    else some { w with level_stack := below, os := w.os ++ ['}'] }

/-- `PrettyWriter::WriteIndent`: four spaces per open level. -/
def PrettyWriter.WriteIndent (w : Writer) : Writer :=
  { w with os := w.os ++ List.replicate (w.level_stack.length * 4) ' ' }

/-- `PrettyWriter::PrettyPrefix`: inside an object every key starts a new,
indented line (after a comma when it is not the first) and every value
follows a colon and a space. -/
def PrettyWriter.PrettyPrefix (w : Writer) (type : ValueType) : Option Writer :=
  match w.level_stack with
  | level :: below =>
    let w1 : Writer :=
      if level.inArray then
        PrettyWriter.WriteIndent
          { w with os := (if level.valueCount > 0 then w.os ++ [','] else w.os) ++ ['\n'] }
      else
        let w2 : Writer :=
          if level.valueCount > 0 then
            if level.valueCount % 2 = 0 then { w with os := w.os ++ [',', '\n'] }
            else { w with os := w.os ++ [':', ' '] }
          else { w with os := w.os ++ ['\n'] }
        if level.valueCount % 2 = 0 then PrettyWriter.WriteIndent w2 else w2
    if !level.inArray ∧ level.valueCount % 2 = 0 ∧ type ≠ ValueType.kStringType then none
    else some { w1 with level_stack := { level with valueCount := level.valueCount + 1 } :: below }
  | [] =>
    if w.hasRoot then none else some { w with hasRoot := true }

/-- `PrettyWriter::StartObject`. -/
def PrettyWriter.StartObject (w : Writer) : Option Writer := do
  let w1 ← PrettyWriter.PrettyPrefix w ValueType.kObjectType
  pure { w1 with level_stack := { valueCount := 0, inArray := false } :: w1.level_stack,
                 os := w1.os ++ ['{'] }

/-- `PrettyWriter::String(const Ch*)`, also reached through `PrettyWriter::Key`. -/
def PrettyWriter.String (w : Writer) (str : Text) : Option Writer := do
  let w1 ← PrettyWriter.PrettyPrefix w ValueType.kStringType
  pure { w1 with os := w1.os ++ WriteString str }

/-- `PrettyWriter::Key`. -/
def PrettyWriter.Key (w : Writer) (str : Text) : Option Writer := PrettyWriter.String w str

/-- `PrettyWriter::Uint`. -/
def PrettyWriter.Uint (w : Writer) (u : Nat) : Option Writer := do
  let w1 ← PrettyWriter.PrettyPrefix w ValueType.kNumberType
  pure { w1 with os := w1.os ++ WriteUint u }

/-- `PrettyWriter::Bool`. -/
def PrettyWriter.Bool (w : Writer) (b : Bool) : Option Writer := do
  let w1 ← PrettyWriter.PrettyPrefix w (if b then ValueType.kTrueType else ValueType.kFalseType)
  pure { w1 with os := w1.os ++ WriteBool b }

/-- `PrettyWriter::EndObject`: a non-empty object is closed on a line of its
own, indented to the enclosing level. -/
def PrettyWriter.EndObject (w : Writer) : Option Writer :=
  match w.level_stack with
  | [] => none
  | level :: below =>
    if level.inArray ∨ level.valueCount % 2 ≠ 0 then none
    else
      let w1 : Writer := { w with level_stack := below }
      let w2 : Writer :=
        if level.valueCount = 0 then w1
        else PrettyWriter.WriteIndent { w1 with os := w1.os ++ ['\n'] }
      some { w2 with os := w2.os ++ ['}'] }

/-- `StringBuffer::GetString`: a NUL-terminated C string, so a reader of it
sees the buffer up to its first NUL. -/
def GetString (buffer : Text) : Text := buffer.takeWhile (fun c => c ≠ '\x00')

end rapidjson

/-! ## The template argument of `pack_event` -/

open rapidjson

/-- The two writer classes `JsonLogger::alert` instantiates `pack_event` with. -/
inductive WriterT
  | compact  -- `rapidjson::Writer<rapidjson::StringBuffer>`
  | pretty   -- `rapidjson::PrettyWriter<rapidjson::StringBuffer>`
  deriving DecidableEq, Repr

/-- `writer.StartObject()`. -/
def WriterT.StartObject : WriterT → Writer → Option Writer
  | .compact, w => w.StartObject
  | .pretty, w => PrettyWriter.StartObject w

/-- `writer.Key(key)`. -/
def WriterT.Key : WriterT → Writer → Text → Option Writer
  | .compact, w, s => w.Key s
  | .pretty, w, s => PrettyWriter.Key w s

/-- `writer.String(str)`. -/
def WriterT.String : WriterT → Writer → Text → Option Writer
  | .compact, w, s => w.String s
  | .pretty, w, s => PrettyWriter.String w s

/-- `writer.Uint(u)`. -/
def WriterT.Uint : WriterT → Writer → Nat → Option Writer
  | .compact, w, u => w.Uint u
  | .pretty, w, u => PrettyWriter.Uint w u

/-- `writer.Bool(b)`. -/
def WriterT.Bool : WriterT → Writer → Bool → Option Writer
  | .compact, w, b => w.Bool b
  | .pretty, w, b => PrettyWriter.Bool w b

/-- `writer.EndObject()`. -/
def WriterT.EndObject : WriterT → Writer → Option Writer
  | .compact, w => w.EndObject
  | .pretty, w => PrettyWriter.EndObject w

/-! ## The alert record -/

/-- A 32-bit unsigned field. -/
abbrev uint32_t := Fin 4294967296

/-- Modelled from the spec: the type of `Event::ref_time` is declared outside
`src/`.  The spec has integer seconds since the epoch with a sub-second part
that the encoder drops; `tv_sec` is any integer, so the embedding covers
every integral type the member can have.  A 32-bit unsigned member, the
width of the other integer fields, holds the values 0 to 2^32 - 1. -/
structure timeval where
  tv_sec : Int
  tv_usec : Int
  deriving DecidableEq, Repr

/-- Modelled from the spec: `SigInfo` is declared in `detection/signature.h`,
outside `src/`.  The spec's SignatureInfo has five unsigned integers and two
texts; a text is a C string pointer, `none` being the null pointer. -/
structure SigInfo where
  generator : uint32_t
  id : uint32_t
  rev : uint32_t
  class_id : uint32_t
  priority : uint32_t
  message : Option Text
  text_rule : Option Text
  deriving DecidableEq, Repr

/-- Modelled from the spec: `Event` is declared outside `src/`.  The spec's
AlertRecord has two unsigned integers, the timestamp, the alert text (a C
string pointer, `none` being the null pointer) and the optional signature
substructure (`none` being a null `sig_info`). -/
structure Event where
  sig_info : Option SigInfo
  event_id : uint32_t
  event_reference : uint32_t
  ref_time : timeval
  alt_msg : Option Text
  deriving DecidableEq, Repr

/-! ## `PairWriter` and `pack_event` -/

/-- The argument of `PairWriter::write(val)`, by the overload it selects:
the template (every integral type), `const char*` / `char*`, or `bool`. -/
inductive PairVal
  | integral (val : Int)
  | cstr (val : Option Text)
  | boolean (val : Bool)
  deriving DecidableEq, Repr

/-- The conversion of an integral value to `unsigned`, the parameter type of
`Writer::Uint`: the value modulo 2^32. -/
def toUnsigned (val : Int) : Nat := (val % 4294967296).toNat

/-- `PairWriter::write(val)`: `writer.Uint(val)` for an integral value,
`writer.String(val ? val : "")` for a C string, `writer.Bool(val)` for a bool. -/
def PairWriter.writeVal (W : WriterT) (writer : Writer) : PairVal → Option Writer
  | .integral val => W.Uint writer (toUnsigned val)
  | .cstr val => W.String writer (val.getD [])
  | .boolean val => W.Bool writer val

/-- `PairWriter::write(key, val)`: `writer.Key(key); write(val);`. -/
def PairWriter.write (W : WriterT) (writer : Writer) (key : Text) (val : PairVal) :
    Option Writer := do
  let writer ← W.Key writer key
  PairWriter.writeVal W writer val

/-- An output stream: the characters inserted and not yet flushed, the
characters already handed to the device, whether the stream is good (an
insertion into a stream that is not good is dropped), and whether its device
rejects every write (`full`). -/
structure ostream where
  good : Bool
  pending : Text
  device : Text
  full : Bool := false
  deriving DecidableEq, Repr

/-- `os << text`: the text goes to the buffer of the stream (taken as large
enough to hold it until the next flush). -/
def ostream.insert (os : ostream) (text : Text) : ostream :=
  if os.good then { os with pending := os.pending ++ text } else os

/-- `os.flush()`: the buffered text is written to the device.  When the
device rejects the write (`full`: a full disk, `/dev/full`) nothing reaches
it and the stream is no longer good; a stream that is not good is left as it
is. -/
def ostream.flush (os : ostream) : ostream :=
  if os.good then
    if os.full ∧ os.pending ≠ [] then { os with good := false }
    else { os with pending := [], device := os.device ++ os.pending }
  else os

/-- Lines 77 to 100 of `pack_event`: a writer on an empty `StringBuffer`,
`StartObject`, the four pairs of the event, the seven pairs of the signature
when `e.sig_info` is not null, `EndObject`.  The result is the contents of
the buffer. -/
def pack_event.buffer (W : WriterT) (e : Event) : Option Text := do
  let writer := Writer.new
  let writer ← W.StartObject writer
  let writer ← PairWriter.write W writer "event_id".toList (.integral e.event_id.val)
  let writer ← PairWriter.write W writer "event_reference".toList (.integral e.event_reference.val)
  let writer ← PairWriter.write W writer "ref_time".toList (.integral e.ref_time.tv_sec)
  let writer ← PairWriter.write W writer "alt_msg".toList (.cstr e.alt_msg)
  let writer ←
    match e.sig_info with
    | some si => do
      let writer ← PairWriter.write W writer "gid".toList (.integral si.generator.val)
      let writer ← PairWriter.write W writer "sid".toList (.integral si.id.val)
      let writer ← PairWriter.write W writer "rev".toList (.integral si.rev.val)
      let writer ← PairWriter.write W writer "classification".toList (.integral si.class_id.val)
      let writer ← PairWriter.write W writer "priority".toList (.integral si.priority.val)
      let writer ← PairWriter.write W writer "message".toList (.cstr si.message)
      PairWriter.write W writer "text_rule".toList (.cstr si.text_rule)
    | none => pure writer
  let writer ← W.EndObject writer
  pure writer.os

/-- The function template `pack_event<Writer>(os, e)`: fill the buffer, then
`os << buffer.GetString() << '\n'`. -/
def pack_event (W : WriterT) (os : ostream) (e : Event) : Option ostream := do
  let buffer ← pack_event.buffer W e
  pure ((os.insert (GetString buffer)).insert ['\n'])


/-! ## The module: `s_params` and `JsonModule` -/

/-- The parameter kinds `s_params` uses. -/
inductive ParamType
  | PT_STRING
  | PT_BOOL
  deriving DecidableEq, Repr

/-- One entry of a parameter table: its name, its kind and its default
(`deflt`), as a text. -/
structure Parameter where
  name : Text
  type : ParamType
  deflt : Option Text
  deriving DecidableEq, Repr

/-- The table `s_params` (lines 111 to 120), without the end marker. -/
def s_params : List Parameter :=
  [{ name := "path".toList, type := .PT_STRING, deflt := some "stdout".toList },
   { name := "pretty".toList, type := .PT_BOOL, deflt := some "true".toList }]

/-- Modelled from the spec: the class `Value` of the host is declared outside
`src/`.  A value is a key-value option: the name `is` compares with, the
text `get_string` returns and the flag `get_bool` returns. -/
structure Value where
  name : Text
  str : Text
  flag : Bool
  deriving DecidableEq, Repr

/-- The data members of `JsonModule`. -/
structure JsonModule where
  path : Text
  pretty : Bool
  deriving DecidableEq, Repr

/-- `mod_ctor`: `new JsonModule`.  The constructor names no member, so `path`
is the empty string and `pretty` is whatever the memory holds, the parameter
`indeterminate`. -/
def mod_ctor (indeterminate : Bool) : JsonModule :=
  { path := [], pretty := indeterminate }

/-- `JsonModule::set`: the returned flag and the module afterwards. -/
def JsonModule.set (self : JsonModule) (v : Value) : Bool × JsonModule :=
  if v.name = "path".toList then (true, { self with path := v.str })
  else if v.name = "pretty".toList then (true, { self with pretty := v.flag })
  else (false, self)

/-- Modelled from the spec: the host's configuration source is outside
`src/`.  This is the value it makes of a parameter's default: the default
text, read as a flag for a boolean parameter. -/
def Parameter.defaultValue (p : Parameter) : Option Value :=
  p.deflt.map (fun d => { name := p.name, str := d, flag := decide (d = "true".toList) })

/-- Modelled from the spec: the host's configuration source is outside
`src/`.  The spec has it resolve the options once at startup, every option
with the default of the table unless supplied: the host gives the module
the defaults of `s_params` and then the supplied options, each through
`set`. -/
def configure (indeterminate : Bool) (supplied : List Value) : JsonModule :=
  (s_params.filterMap Parameter.defaultValue ++ supplied).foldl
    (fun m v => (m.set v).2) (mod_ctor indeterminate)

/-! ## The logger: `JsonLogger` -/

/-- What a `std::ostream*` holds: the null pointer, the address of
`std::cout`, the address of `std::cerr`, or the address of a stream made
by `new`. -/
inductive StreamPtr
  | null
  | cout
  | cerr
  | heap (addr : Nat)
  deriving DecidableEq, Repr

/-- A `std::ofstream` made by `new`: the path it was constructed on, its
stream state, and whether it is still allocated. -/
structure HeapStream where
  path : Text
  os : ostream
  live : Bool
  deriving DecidableEq, Repr

/-- The part of the process a logger acts on: the two shared standard
streams, the streams made by `new` (the address of a stream is its index),
the paths the file system refuses to open for writing, and the paths that
open but whose device rejects every write (`full`). -/
structure World where
  cout : ostream
  cerr : ostream
  heap : List HeapStream
  refused : List Text
  full : List Text := []
  deriving DecidableEq, Repr

/-- `*stream`: the stream a pointer points to.  The null pointer, an address
never allocated and a deleted stream have none. -/
def World.deref (w : World) : StreamPtr → Option ostream
  | .null => none
  | .cout => some w.cout
  | .cerr => some w.cerr
  | .heap addr =>
    match w.heap.get? addr with
    | some h => if h.live then some h.os else none
    | none => none

/-- The world after the stream behind a pointer has changed to `os`. -/
def World.store (w : World) (p : StreamPtr) (os : ostream) : World :=
  match p with
  | .null => w
  | .cout => { w with cout := os }
  | .cerr => { w with cerr := os }
  | .heap addr => { w with heap := w.heap.modify (fun h => { h with os := os }) addr }

/-- `new std::ofstream(path)`: a stream on a truncated file, at a fresh
address; it is not good when the file system refuses the path, and when the
path opens its device is full or not as the file system has it. -/
def World.newOfstream (w : World) (path : Text) : StreamPtr × World :=
  (.heap w.heap.length,
   { w with heap := w.heap ++
      [{ path := path,
         os := { good := decide (path ∉ w.refused), pending := [], device := [],
                 full := decide (path ∉ w.refused ∧ path ∈ w.full) },
         live := true }] })

/-- `delete stream` for a stream made by `new`: the destructor flushes and
closes the file and the stream is freed.  Deleting anything else, or a
stream twice, is undefined: `none`. -/
def World.delete (w : World) : StreamPtr → Option World
  | .heap addr =>
    match w.heap.get? addr with
    | some h =>
      if h.live then
        some { w with heap := w.heap.modify (fun h => { h with os := h.os.flush, live := false }) addr }
      else none
    | none => none
  | _ => none

/-- The data members of `JsonLogger`. -/
structure JsonLogger where
  path : Text
  pretty : Bool
  stream : StreamPtr
  deriving DecidableEq, Repr

/-- The constructor `JsonLogger(path, pretty)`; `stream` starts as `nullptr`. -/
def JsonLogger.new (path : Text) (pretty : Bool) : JsonLogger :=
  { path := path, pretty := pretty, stream := .null }

/-- `JsonLogger::open`.  A failed `assert` is `none`. -/
def JsonLogger.open (self : JsonLogger) (w : World) : Option (JsonLogger × World) :=
  if self.stream ≠ .null then none
  else if self.path = [] then none
  else if self.path = "stdout".toList then some ({ self with stream := .cout }, w)
  else if self.path = "stderr".toList then some ({ self with stream := .cerr }, w)
  else
    let (p, w1) := w.newOfstream self.path
    some ({ self with stream := p }, w1)

/-- `JsonLogger::close`.  A failed `assert` is `none`. -/
def JsonLogger.close (self : JsonLogger) (w : World) : Option (JsonLogger × World) :=
  if self.stream = .null then none
  else do
    let w1 ←
      if self.path ≠ "stdout".toList ∧ self.path ≠ "stderr".toList then w.delete self.stream
      else some w
    pure ({ self with stream := .null }, w1)

/-- `JsonLogger::alert(Packet*, msg, e)`: `pack_event` with the writer the
`pretty` flag selects, on `*stream`, then `stream->flush()`.  The packet
pointer has no name in the source and `msg` is not used.  Dereferencing a
pointer that points to no stream is `none`. -/
def JsonLogger.alert (self : JsonLogger) (w : World) (_msg : Option Text) (e : Event) :
    Option (JsonLogger × World) := do
  let os ← w.deref self.stream
  let os1 ← if self.pretty then pack_event .pretty os e else pack_event .compact os e
  pure (self, w.store self.stream os1.flush)

/-- `json_ctor`: `new JsonLogger(mod->path, mod->pretty)`. -/
def json_ctor (m : JsonModule) : JsonLogger := JsonLogger.new m.path m.pretty

/-- A run of the lifecycle hooks after `open`: one `alert` per event. -/
def JsonLogger.alerts (self : JsonLogger) (w : World) :
    List (Option Text × Event) → Option (JsonLogger × World)
  | [] => some (self, w)
  | (msg, e) :: rest => do
    let (s1, w1) ← self.alert w msg e
    JsonLogger.alerts s1 w1 rest

/-- The call sequence `open`, one `alert` per event, `close`. -/
def JsonLogger.cycle (self : JsonLogger) (w : World) (events : List (Option Text × Event)) :
    Option (JsonLogger × World) := do
  let (s1, w1) ← self.open w
  let (s2, w2) ← JsonLogger.alerts s1 w1 events
  s2.close w2

/-- The writer `alert` instantiates `pack_event` with. -/
def JsonLogger.writer (self : JsonLogger) : WriterT :=
  if self.pretty then .pretty else .compact

/-- The stream pointer of the logger is what `open` binds for its
destination and, for a file destination, the stream is still allocated. -/
def JsonLogger.boundOn (self : JsonLogger) (w : World) : Bool :=
  if self.path = "stdout".toList then self.stream = .cout
  else if self.path = "stderr".toList then self.stream = .cerr
  else
    match self.stream with
    | .heap addr =>
      match w.heap.get? addr with
      | some h => h.live
      | none => false
    | _ => false

/-- The text a stream has taken so far: what reached the device and what is
still buffered. -/
def ostream.contents (os : ostream) : Text := os.device ++ os.pending

/-- An example world: both standard streams good and empty, one file stream
allocated at address 0, and a path the file system refuses. -/
def exampleWorld : World :=
  { cout := { good := true, pending := [], device := [] },
    cerr := { good := true, pending := [], device := [] },
    heap := [{ path := "alert.json".toList,
               os := { good := true, pending := [], device := [] }, live := true }],
    refused := ["/no/such/dir/alert.json".toList] }

/-- An example record: the one of the spec's first scenario. -/
def exampleEvent : Event :=
  { sig_info := none, event_id := 7, event_reference := 0,
    ref_time := { tv_sec := 1700000000, tv_usec := 0 }, alt_msg := none }

/-! ## The object text in closed form

The pairs `pack_event` writes, as a list, and the text the two writers make
of a list of pairs.  `buffer_eq` below proves that this is the buffer
`pack_event` fills. -/

/-- The value of a pair as the writer prints it. -/
def PairVal.text : PairVal → Text
  | .integral val => u32toa (toUnsigned val)
  | .cstr val => WriteString (val.getD [])
  | .boolean val => WriteBool val

/-- The four pairs written for every event (lines 83 to 86). -/
def eventPairs (e : Event) : List (Text × PairVal) :=
  [("event_id".toList, .integral e.event_id.val),
   ("event_reference".toList, .integral e.event_reference.val),
   ("ref_time".toList, .integral e.ref_time.tv_sec),
   ("alt_msg".toList, .cstr e.alt_msg)]

/-- The seven pairs written for a signature (lines 91 to 97). -/
def sigPairs (si : SigInfo) : List (Text × PairVal) :=
  [("gid".toList, .integral si.generator.val),
   ("sid".toList, .integral si.id.val),
   ("rev".toList, .integral si.rev.val),
   ("classification".toList, .integral si.class_id.val),
   ("priority".toList, .integral si.priority.val),
   ("message".toList, .cstr si.message),
   ("text_rule".toList, .cstr si.text_rule)]

/-- All pairs written for an event, in the order written. -/
def Event.pairs (e : Event) : List (Text × PairVal) :=
  eventPairs e ++ (match e.sig_info with | some si => sigPairs si | none => [])

/-- The text of one member: the key, the separator of the mode, the value. -/
def memberText : WriterT → Text × PairVal → Text
  | .compact, (k, v) => WriteString k ++ ':' :: v.text
  | .pretty, (k, v) => WriteString k ++ ':' :: ' ' :: v.text

/-- The text between two members. -/
def separator : WriterT → Text
  | .compact => [',']
  | .pretty => [',', '\n', ' ', ' ', ' ', ' ']

/-- The text after the first member: the further members, each after a
separator, and in pretty mode the line break before the closing brace. -/
def tailText : WriterT → List (Text × PairVal) → Text
  | .compact, [] => []
  | .pretty, [] => ['\n']
  | W, m :: rest => separator W ++ (memberText W m ++ tailText W rest)

/-- The text of an object with the given members. -/
def objectText : WriterT → List (Text × PairVal) → Text
  | _, [] => ['{', '}']
  | .compact, m :: rest => '{' :: (memberText .compact m ++ (tailText .compact rest ++ ['}']))
  | .pretty, m :: rest =>
    '{' :: '\n' :: ' ' :: ' ' :: ' ' :: ' ' ::
      (memberText .pretty m ++ (tailText .pretty rest ++ ['}']))

/-! ## Reading JSON text back -/

namespace Json

/-- A lexical token of JSON text.  A string token carries the characters
between its quotes as they are written; a number token carries its literal. -/
inductive Token
  | lbrace | rbrace | lbracket | rbracket | colon | comma
  | string (raw : Text)
  | number (lit : Text)
  | word (name : Text)
  deriving DecidableEq, Repr

/-- What the tokenizer is in the middle of; the characters read so far of an
unfinished token are kept in reverse. -/
inductive Mode
  | top
  | str (acc : Text)
  | esc (acc : Text)
  | hex (acc : Text) (k : Nat)
  | num (acc : Text)
  | word (acc : Text)
  deriving DecidableEq, Repr

/-- Insignificant whitespace of JSON: space, line feed, carriage return, tab. -/
def isWs (c : Char) : Bool := c = ' ' || c = '\n' || c = '\r' || c = '\t'

/-- A character that may occur in a number literal. -/
def isNumChar (c : Char) : Bool :=
  c.isDigit || c = '-' || c = '+' || c = '.' || c = 'e' || c = 'E'

/-- A hexadecimal digit. -/
def isHex (c : Char) : Bool :=
  c.isDigit || ('a'.toNat ≤ c.toNat && c.toNat ≤ 'f'.toNat)
    || ('A'.toNat ≤ c.toNat && c.toNat ≤ 'F'.toNat)

/-- A character that may follow a backslash in a string (other than `u`). -/
def isEscapeName (c : Char) : Bool :=
  c = '"' || c = '\\' || c = '/' || c = 'b' || c = 'f' || c = 'n' || c = 'r' || c = 't'

/-- The token of a structural character. -/
def punct (c : Char) : Option Token :=
  if c = '{' then some .lbrace else if c = '}' then some .rbrace
  else if c = '[' then some .lbracket else if c = ']' then some .rbracket
  else if c = ':' then some .colon else if c = ',' then some .comma
  else none

/-- The tokenizer: one pass over the text.  Whitespace is skipped between
tokens only; inside a string a raw control character or an unknown escape is
an error, and so is an unfinished string. -/
def lex : Mode → Text → Option (List Token)
  | .top, [] => some []
  | .top, c :: cs =>
    if isWs c then lex .top cs
    else if c = '"' then lex (.str []) cs
    else if c.isDigit || c = '-' then lex (.num [c]) cs
    else if c.isLower then lex (.word [c]) cs
    else match punct c with
      | some t => (lex .top cs).map (fun ts => t :: ts)
      | none => none
  | .str _, [] => none
  | .str acc, c :: cs =>
    if c = '"' then (lex .top cs).map (fun ts => Token.string acc.reverse :: ts)
    else if c = '\\' then lex (.esc (c :: acc)) cs
    else if c.toNat < 32 then none
    else lex (.str (c :: acc)) cs
  | .esc _, [] => none
  | .esc acc, c :: cs =>
    if c = 'u' then lex (.hex (c :: acc) 4) cs
    else if isEscapeName c then lex (.str (c :: acc)) cs
    else none
  | .hex _ _, [] => none
  | .hex acc k, c :: cs =>
    if isHex c then
      if k ≤ 1 then lex (.str (c :: acc)) cs else lex (.hex (c :: acc) (k - 1)) cs
    else none
  | .num acc, [] => some [Token.number acc.reverse]
  | .num acc, c :: cs =>
    if isNumChar c then lex (.num (c :: acc)) cs
    else if isWs c then (lex .top cs).map (fun ts => Token.number acc.reverse :: ts)
    else match punct c with
      | some t => (lex .top cs).map (fun ts => Token.number acc.reverse :: t :: ts)
      | none => none
  | .word acc, [] => some [Token.word acc.reverse]
  | .word acc, c :: cs =>
    if c.isLower then lex (.word (c :: acc)) cs
    else if isWs c then (lex .top cs).map (fun ts => Token.word acc.reverse :: ts)
    else match punct c with
      | some t => (lex .top cs).map (fun ts => Token.word acc.reverse :: t :: ts)
      | none => none

/-- A non-empty run of decimal digits. -/
def isDigits (t : Text) : Bool := !t.isEmpty && t.all Char.isDigit

/-- The exponent part of a number literal, or nothing. -/
def validExp : Text → Bool
  | [] => true
  | e :: rest =>
    (e = 'e' || e = 'E') &&
      (match rest with
       | s :: ds => if s = '+' || s = '-' then isDigits ds else isDigits (s :: ds)
       | [] => false)

/-- The fraction and exponent parts of a number literal, or nothing. -/
def validFracExp : Text → Bool
  | '.' :: rest => isDigits (rest.takeWhile Char.isDigit) && validExp (rest.dropWhile Char.isDigit)
  | rest => validExp rest

/-- The integer part of a number literal: `0`, or digits that do not start
with `0`. -/
def validInt (t : Text) : Bool := isDigits t && (t = ['0'] || t.head? ≠ some '0')

/-- A number literal without its minus sign, when it has one. -/
def stripMinus : Text → Text
  | '-' :: rest => rest
  | lit => lit

/-- The number grammar of JSON: an optional minus, the integer part, an
optional fraction, an optional exponent. -/
def validNumber (lit : Text) : Bool :=
  validInt ((stripMinus lit).takeWhile Char.isDigit) &&
    validFracExp ((stripMinus lit).dropWhile Char.isDigit)

/-- A scalar JSON value.  A string keeps the characters between its quotes
as written, a number its literal. -/
inductive Value
  | null
  | bool (b : Bool)
  | number (lit : Text)
  | string (raw : Text)
  deriving DecidableEq, Repr

/-- The scalar value of a token. -/
def parseValue : Token → Option Value
  | .string raw => some (.string raw)
  | .number lit => if validNumber lit then some (.number lit) else none
  | .word name =>
    if name = "true".toList then some (.bool true)
    else if name = "false".toList then some (.bool false)
    else if name = "null".toList then some .null
    else none
  | _ => none

/-- The members of an object after its opening brace, up to and including
the closing brace, which must end the text. -/
def parseMembers : List Token → Option (List (Text × Value))
  | [.string key, .colon, v, .rbrace] => do
    let val ← parseValue v
    pure [(key, val)]
  | .string key :: .colon :: v :: .comma :: rest => do
    let val ← parseValue v
    let more ← parseMembers rest
    pure ((key, val) :: more)
  | _ => none

/-- A token sequence that is one object with scalar member values. -/
def parseObjectTokens : List Token → Option (List (Text × Value))
  | [.lbrace, .rbrace] => some []
  | .lbrace :: rest => parseMembers rest
  | _ => none

/-- The parser: a JSON text that is a single object whose member values are
scalars, as the list of its members in the order written. -/
def parseObject (text : Text) : Option (List (Text × Value)) :=
  (lex .top text).bind parseObjectTokens

/-- The keys of a parsed object, in the order written. -/
def keys (text : Text) : Option (List Text) :=
  (parseObject text).map (fun ms => ms.map Prod.fst)

end Json

/-! ## The tokens and values the writer's output reads back as -/

/-- The token the tokenizer makes of a pair's value. -/
def PairVal.token : PairVal → Json.Token
  | .integral val => .number (u32toa (toUnsigned val))
  | .cstr val => .string ((val.getD []).flatMap WriteChar)
  | .boolean val => .word (WriteBool val)

/-- The tokens after the first member's value: for every further member a
comma, the key, a colon and the value; then the closing brace. -/
def tailTokens : List (Text × PairVal) → List Json.Token
  | [] => [.rbrace]
  | (k, v) :: rest =>
    .comma :: .string (k.flatMap WriteChar) :: .colon :: v.token :: tailTokens rest

/-- The tokens of the object text of a list of members. -/
def objectTokens : List (Text × PairVal) → List Json.Token
  | [] => [.lbrace, .rbrace]
  | (k, v) :: rest =>
    .lbrace :: .string (k.flatMap WriteChar) :: .colon :: v.token :: tailTokens rest

/-- The JSON value a pair's value is read back as. -/
def PairVal.value : PairVal → Json.Value
  | .integral val => .number (u32toa (toUnsigned val))
  | .cstr val => .string ((val.getD []).flatMap WriteChar)
  | .boolean val => .bool val

/-- A member as it is read back: the key as written between its quotes and
the value. -/
def readBack (m : Text × PairVal) : Text × Json.Value := (m.1.flatMap WriteChar, m.2.value)

/-! ## The buffer in closed form -/

theorem write_compact (os : Text) (below : List Level) (hr : Bool) (n : Nat) (key : Text)
    (val : PairVal) (hn : n % 2 = 0) :
    PairWriter.write .compact ⟨os, ⟨n, false⟩ :: below, hr⟩ key val =
      some ⟨os ++ ((if n > 0 then [','] else []) ++ memberText .compact (key, val)),
            ⟨n + 2, false⟩ :: below, hr⟩ := by
  have h1 : (n + 1) % 2 ≠ 0 := by omega
  cases val <;> by_cases h0 : n > 0 <;>
    simp [PairWriter.write, PairWriter.writeVal, WriterT.Key, WriterT.String, WriterT.Uint,
      WriterT.Bool, Writer.Key, Writer.String, Writer.Uint, Writer.Bool, Writer.Prefix,
      PairVal.text, WriteUint, memberText, hn, h1, h0]

theorem write_pretty (os : Text) (hr : Bool) (n : Nat) (key : Text)
    (val : PairVal) (hn : n % 2 = 0) :
    PairWriter.write .pretty ⟨os, [⟨n, false⟩], hr⟩ key val =
      some ⟨os ++ ((if n > 0 then [','] else []) ++
              ('\n' :: ' ' :: ' ' :: ' ' :: ' ' :: memberText .pretty (key, val))),
            [⟨n + 2, false⟩], hr⟩ := by
  have h1 : (n + 1) % 2 ≠ 0 := by omega
  cases val <;> by_cases h0 : n > 0 <;>
    simp [PairWriter.write, PairWriter.writeVal, WriterT.Key, WriterT.String, WriterT.Uint,
      WriterT.Bool, PrettyWriter.Key, PrettyWriter.String, PrettyWriter.Uint, PrettyWriter.Bool,
      PrettyWriter.PrettyPrefix, PrettyWriter.WriteIndent,
      PairVal.text, WriteUint, memberText, hn, h1, h0, List.replicate]

/-- The buffer `pack_event` fills holds the object text of the event's pairs. -/
theorem buffer_eq (W : WriterT) (e : Event) :
    pack_event.buffer W e = some (objectText W e.pairs) := by
  obtain ⟨sig, a, b, c, d⟩ := e
  cases W <;> cases sig <;>
    simp [pack_event.buffer, write_compact, write_pretty, WriterT.StartObject,
      WriterT.EndObject, Writer.new,
      Writer.StartObject, Writer.EndObject, Writer.Prefix,
      PrettyWriter.StartObject,
      PrettyWriter.EndObject, PrettyWriter.PrettyPrefix, PrettyWriter.WriteIndent,
      objectText, tailText, separator, Event.pairs, eventPairs, sigPairs]

/-! ## Facts about the writer's output -/

theorem hexDigits_isDigit (d : Nat) (h : d < 10) : (hexDigits d).isDigit = true := by
  interval_cases d <;> decide

theorem hexDigits_isHex (i : Nat) : Json.isHex (hexDigits i) = true := by
  unfold hexDigits
  split <;> decide

theorem hexDigits_ne_zero (d : Nat) (h0 : 0 < d) (h : d < 10) : hexDigits d ≠ '0' := by
  interval_cases d <;> decide

theorem u32toaAux_digits (fuel : Nat) : ∀ (n : Nat) (acc : Text),
    (∀ c ∈ acc, c.isDigit = true) → ∀ c ∈ u32toaAux fuel n acc, c.isDigit = true := by
  induction fuel with
  | zero => intro n acc h; simpa [u32toaAux] using h
  | succ f ih =>
    intro n acc h
    unfold u32toaAux
    split
    · rename_i hn
      intro c hc
      rcases List.mem_cons.mp hc with rfl | hc
      · exact hexDigits_isDigit n hn
      · exact h c hc
    · apply ih
      intro c hc
      rcases List.mem_cons.mp hc with rfl | hc
      · exact hexDigits_isDigit _ (Nat.mod_lt _ (by decide))
      · exact h c hc

theorem u32toa_digits (u : Nat) : ∀ c ∈ u32toa u, c.isDigit = true :=
  u32toaAux_digits 10 u [] (by simp)

theorem u32toaAux_ne_nil (fuel : Nat) : ∀ (n : Nat) (acc : Text),
    (0 < fuel ∨ acc ≠ []) → u32toaAux fuel n acc ≠ [] := by
  induction fuel with
  | zero => intro n acc h; simpa [u32toaAux] using h
  | succ f ih =>
    intro n acc _
    unfold u32toaAux
    split
    · simp
    · exact ih _ _ (Or.inr (by simp))

theorem u32toa_ne_nil (u : Nat) : u32toa u ≠ [] :=
  u32toaAux_ne_nil 10 u [] (Or.inl (by decide))

theorem u32toaAux_head (fuel : Nat) : ∀ (n : Nat) (acc : Text),
    0 < n → n < 10 ^ fuel → (u32toaAux fuel n acc).head? ≠ some '0' := by
  induction fuel with
  | zero => intro n acc h0 h; simp at h; omega
  | succ f ih =>
    intro n acc h0 h
    unfold u32toaAux
    split
    · rename_i hn
      simpa using hexDigits_ne_zero n h0 hn
    · rename_i hn
      apply ih
      · omega
      · rw [Nat.pow_succ] at h
        omega

theorem u32toa_zero : u32toa 0 = ['0'] := by decide

theorem u32toa_head (u : Nat) (h0 : 0 < u) (h : u < 4294967296) :
    (u32toa u).head? ≠ some '0' :=
  u32toaAux_head 10 u [] h0 (by omega)

theorem toUnsigned_lt (val : Int) : toUnsigned val < 4294967296 := by
  unfold toUnsigned
  have h := Int.emod_lt_of_pos val (by decide : (0 : Int) < 4294967296)
  have h2 := Int.emod_nonneg val (by decide : (4294967296 : Int) ≠ 0)
  omega

theorem toUnsigned_of_range (val : Int) (h0 : 0 ≤ val) (h : val < 4294967296) :
    (toUnsigned val : Int) = val := by
  unfold toUnsigned
  rw [Int.emod_eq_of_lt h0 h]
  omega

theorem toUnsigned_uint32 (x : uint32_t) : toUnsigned (x.val : Int) = x.val := by
  have h := x.isLt
  have := toUnsigned_of_range (x.val : Int) (by omega) (by omega)
  omega

/-! ## Tokenizing the writer's output -/

/-- What `WriteChar` can put out: the character itself when it needs no
escape, a two-character escape, or a `\u00XX` escape. -/
theorem WriteChar_cases (c : Char) :
    (WriteChar c = [c] ∧ c ≠ '"' ∧ c ≠ '\\' ∧ ¬ c.toNat < 32) ∨
    (∃ e, WriteChar c = ['\\', e] ∧ Json.isEscapeName e = true ∧ e ≠ 'u') ∨
    (∃ i j, WriteChar c = ['\\', 'u', '0', '0', hexDigits i, hexDigits j]) := by
  unfold WriteChar escape
  by_cases h : c.toNat < 32
  · simp only [h, if_true]
    split_ifs <;> first
      | exact Or.inr (Or.inr ⟨_, _, rfl⟩)
      | exact Or.inr (Or.inl ⟨_, rfl, by decide, by decide⟩)
      | (exfalso; revert ‹_›; decide)
  · simp only [h, if_false]
    by_cases hq : c = '"'
    · subst hq; exact Or.inr (Or.inl ⟨'"', by decide, by decide, by decide⟩)
    · by_cases hb : c = '\\'
      · subst hb; exact Or.inr (Or.inl ⟨'\\', by decide, by decide, by decide⟩)
      · simp [hq, hb, h]

theorem lex_str_char (c : Char) (acc rest : Text) :
    Json.lex (.str acc) (WriteChar c ++ rest) =
      Json.lex (.str ((WriteChar c).reverse ++ acc)) rest := by
  rcases WriteChar_cases c with ⟨h, h1, h2, h3⟩ | ⟨e, h, h1, h2⟩ | ⟨i, j, h⟩
  · rw [h]; simp [Json.lex, h1, h2, h3]
  · rw [h]; simp [Json.lex, h1, h2]
  · rw [h]; simp [Json.lex, hexDigits_isHex, show Json.isHex '0' = true from by decide]

theorem lex_str (s : Text) : ∀ (acc rest : Text),
    Json.lex (.str acc) (s.flatMap WriteChar ++ '"' :: rest) =
      (Json.lex .top rest).map
        (fun ts => Json.Token.string (acc.reverse ++ s.flatMap WriteChar) :: ts) := by
  induction s with
  | nil => intro acc rest; simp [Json.lex]
  | cons c s ih =>
    intro acc rest
    simp only [List.flatMap_cons, List.append_assoc]
    rw [lex_str_char, ih]
    simp

theorem lex_str_nil (s rest : Text) :
    Json.lex (.str []) (s.flatMap WriteChar ++ '"' :: rest) =
      (Json.lex .top rest).map (fun ts => Json.Token.string (s.flatMap WriteChar) :: ts) := by
  have h := lex_str s [] rest
  simpa only [List.reverse_nil, List.nil_append] using h

theorem lex_WriteString (s rest : Text) :
    Json.lex .top (WriteString s ++ rest) =
      (Json.lex .top rest).map (fun ts => Json.Token.string (s.flatMap WriteChar) :: ts) := by
  have h := lex_str s [] rest
  simp only [List.reverse_nil, List.nil_append] at h
  simp [WriteString, Json.lex, Json.isWs, h]

theorem lex_num (ds : Text) : ∀ (acc rest : Text), (∀ c ∈ ds, c.isDigit = true) →
    Json.lex (.num acc) (ds ++ rest) = Json.lex (.num (ds.reverse ++ acc)) rest := by
  induction ds with
  | nil => intro acc rest _; simp
  | cons d ds ih =>
    intro acc rest h
    have hd : d.isDigit = true := h d (List.mem_cons_self _ _)
    have ht : ∀ c ∈ ds, c.isDigit = true := fun c hc => h c (List.mem_cons_of_mem _ hc)
    simp [Json.lex, Json.isNumChar, hd, ih _ _ ht]

theorem isDigit_not_ws (c : Char) (h : c.isDigit = true) : Json.isWs c = false := by
  simp only [Json.isWs, Bool.or_eq_false_iff, decide_eq_false_iff_not]
  refine ⟨⟨⟨?_, ?_⟩, ?_⟩, ?_⟩ <;> rintro rfl <;> exact absurd h (by decide)

/-- A digit run read from the top: the first digit opens a number token. -/
theorem lex_digits (ds rest : Text) (hne : ds ≠ []) (h : ∀ c ∈ ds, c.isDigit = true) :
    Json.lex .top (ds ++ rest) = Json.lex (.num ds.reverse) rest := by
  cases ds with
  | nil => exact absurd rfl hne
  | cons d ds =>
    have hd : d.isDigit = true := h d (List.mem_cons_self _ _)
    have ht : ∀ c ∈ ds, c.isDigit = true := fun c hc => h c (List.mem_cons_of_mem _ hc)
    have hq : d ≠ '"' := by rintro rfl; exact absurd hd (by decide)
    simp [Json.lex, isDigit_not_ws d hd, hd, hq, lex_num ds _ _ ht]

theorem lex_value_comma (v : PairVal) (rest : Text) :
    Json.lex .top (v.text ++ ',' :: rest) =
      (Json.lex .top rest).map (fun ts => v.token :: Json.Token.comma :: ts) := by
  cases v with
  | integral val =>
    simp only [PairVal.text, PairVal.token]
    rw [lex_digits _ _ (u32toa_ne_nil _) (u32toa_digits _)]
    simp [Json.lex, Json.isNumChar, Json.isWs, Json.punct]
  | cstr val =>
    simp only [PairVal.text, PairVal.token]
    rw [lex_WriteString]
    simp [Json.lex, Json.isWs, Json.punct, Function.comp_def]
  | boolean b =>
    cases b <;> simp [PairVal.text, PairVal.token, WriteBool, Json.lex, Json.isWs, Json.punct,
      Json.isNumChar]

theorem lex_value_rbrace (v : PairVal) (rest : Text) :
    Json.lex .top (v.text ++ '}' :: rest) =
      (Json.lex .top rest).map (fun ts => v.token :: Json.Token.rbrace :: ts) := by
  cases v with
  | integral val =>
    simp only [PairVal.text, PairVal.token]
    rw [lex_digits _ _ (u32toa_ne_nil _) (u32toa_digits _)]
    simp [Json.lex, Json.isNumChar, Json.isWs, Json.punct]
  | cstr val =>
    simp only [PairVal.text, PairVal.token]
    rw [lex_WriteString]
    simp [Json.lex, Json.isWs, Json.punct, Function.comp_def]
  | boolean b =>
    cases b <;> simp [PairVal.text, PairVal.token, WriteBool, Json.lex, Json.isWs, Json.punct,
      Json.isNumChar]

theorem lex_value_newline (v : PairVal) (rest : Text) :
    Json.lex .top (v.text ++ '\n' :: rest) =
      (Json.lex .top rest).map (fun ts => v.token :: ts) := by
  cases v with
  | integral val =>
    simp only [PairVal.text, PairVal.token]
    rw [lex_digits _ _ (u32toa_ne_nil _) (u32toa_digits _)]
    simp [Json.lex, Json.isNumChar, Json.isWs, Json.punct]
  | cstr val =>
    simp only [PairVal.text, PairVal.token]
    rw [lex_WriteString]
    simp [Json.lex, Json.isWs, Json.punct, Function.comp_def]
  | boolean b =>
    cases b <;> simp [PairVal.text, PairVal.token, WriteBool, Json.lex, Json.isWs, Json.punct,
      Json.isNumChar]

theorem lex_tail (W : WriterT) (rest : List (Text × PairVal)) : ∀ (v : PairVal) (after : Text),
    Json.lex .top (v.text ++ (tailText W rest ++ '}' :: after)) =
      (Json.lex .top after).map (fun ts => v.token :: (tailTokens rest ++ ts)) := by
  induction rest with
  | nil =>
    intro v after
    cases W
    · simp [tailText, lex_value_rbrace, tailTokens]
    · simp [tailText, lex_value_newline, Json.lex, tailTokens, Json.isWs, Json.punct,
        Function.comp_def]
  | cons m rest ih =>
    intro v after
    obtain ⟨k, v2⟩ := m
    cases W
    · simp only [tailText, separator, memberText, List.append_assoc, List.cons_append,
        List.nil_append, lex_value_comma, lex_WriteString]
      simp [Json.lex, Json.isWs, Json.punct, ih v2, tailTokens, Function.comp_def]
    · simp only [tailText, separator, memberText, List.append_assoc, List.cons_append,
        List.nil_append, lex_value_comma]
      simp [Json.lex, Json.isWs, Json.punct, lex_WriteString, lex_str_nil, ih v2, tailTokens,
        Function.comp_def]

/-- Tokenizing the object text of a list of members, followed by any text,
gives the same tokens in both modes and goes on with the text that follows. -/
theorem lex_objectText_append (W : WriterT) (ms : List (Text × PairVal)) (after : Text) :
    Json.lex .top (objectText W ms ++ after) =
      (Json.lex .top after).map (fun ts => objectTokens ms ++ ts) := by
  cases ms with
  | nil => cases W <;> simp [objectText, Json.lex, Json.isWs, Json.punct, objectTokens,
      Function.comp_def]
  | cons m rest =>
    obtain ⟨k, v⟩ := m
    cases W
    · simp only [objectText, memberText, List.append_assoc, List.cons_append,
        List.nil_append]
      simp [Json.lex, Json.isWs, Json.punct, lex_WriteString, lex_str_nil, lex_tail,
        objectTokens, Function.comp_def]
    · simp only [objectText, memberText, List.append_assoc, List.cons_append,
        List.nil_append]
      simp [Json.lex, Json.isWs, Json.punct, lex_WriteString, lex_str_nil, lex_tail,
        objectTokens, Function.comp_def]

theorem lex_objectText (W : WriterT) (ms : List (Text × PairVal)) :
    Json.lex .top (objectText W ms) = some (objectTokens ms) := by
  have h := lex_objectText_append W ms []
  simpa [Json.lex] using h

/-- A line feed after the object text adds no token. -/
theorem lex_objectText_line (W : WriterT) (ms : List (Text × PairVal)) :
    Json.lex .top (objectText W ms ++ ['\n']) = some (objectTokens ms) := by
  have h := lex_objectText_append W ms ['\n']
  simpa [Json.lex, Json.isWs] using h

/-! ## Parsing the writer's output -/

theorem takeWhile_digits (ds : Text) (h : ∀ c ∈ ds, c.isDigit = true) :
    ds.takeWhile Char.isDigit = ds :=
  List.takeWhile_eq_self_iff.mpr h

theorem dropWhile_digits (ds : Text) (h : ∀ c ∈ ds, c.isDigit = true) :
    ds.dropWhile Char.isDigit = [] :=
  List.dropWhile_eq_nil_iff.mpr h

/-- A digit run without a leading zero (or the single digit zero) is a JSON
number. -/
theorem validNumber_digits (ds : Text) (hne : ds ≠ []) (h : ∀ c ∈ ds, c.isDigit = true)
    (hz : ds = ['0'] ∨ ds.head? ≠ some '0') : Json.validNumber ds = true := by
  have hbody : Json.stripMinus ds = ds := by
    cases ds with
    | nil => rfl
    | cons d ds =>
      have hd : d.isDigit = true := h d (List.mem_cons_self _ _)
      have hm : d ≠ '-' := by rintro rfl; exact absurd hd (by decide)
      unfold Json.stripMinus
      split
      · rename_i heq; cases heq; exact absurd rfl hm
      · rfl
  unfold Json.validNumber
  simp only [hbody, takeWhile_digits ds h, dropWhile_digits ds h]
  have hall : ds.all Char.isDigit = true := List.all_eq_true.mpr h
  have hemp : ds.isEmpty = false := by cases ds <;> simp_all
  rcases hz with hz | hz
  · subst hz; decide
  · simp [Json.validInt, Json.isDigits, hall, hemp, hz, Json.validFracExp, Json.validExp]

theorem validNumber_u32toa (u : Nat) (h : u < 4294967296) :
    Json.validNumber (u32toa u) = true := by
  apply validNumber_digits _ (u32toa_ne_nil u) (u32toa_digits u)
  rcases Nat.eq_zero_or_pos u with rfl | h0
  · exact Or.inl u32toa_zero
  · exact Or.inr (u32toa_head u h0 h)

theorem parseValue_token (v : PairVal) : Json.parseValue v.token = some v.value := by
  cases v with
  | integral val =>
    simp [PairVal.token, PairVal.value, Json.parseValue,
      validNumber_u32toa _ (toUnsigned_lt val)]
  | cstr val => simp [PairVal.token, PairVal.value, Json.parseValue]
  | boolean b => cases b <;> simp [PairVal.token, PairVal.value, Json.parseValue, WriteBool]

theorem parseMembers_tail (rest : List (Text × PairVal)) : ∀ (k : Text) (v : PairVal),
    Json.parseMembers (.string k :: .colon :: v.token :: tailTokens rest) =
      some ((k, v.value) :: rest.map readBack) := by
  induction rest with
  | nil => intro k v; simp [tailTokens, Json.parseMembers, parseValue_token]
  | cons m rest ih =>
    intro k v
    obtain ⟨k2, v2⟩ := m
    simp [tailTokens, Json.parseMembers, parseValue_token, ih, readBack]

theorem parseObjectTokens_objectTokens (ms : List (Text × PairVal)) :
    Json.parseObjectTokens (objectTokens ms) = some (ms.map readBack) := by
  cases ms with
  | nil => simp [objectTokens, Json.parseObjectTokens]
  | cons m rest =>
    obtain ⟨k, v⟩ := m
    simp [objectTokens, Json.parseObjectTokens, parseMembers_tail, readBack]

/-- The object text of a list of members parses, in either mode, to these
members in the same order. -/
theorem parseObject_objectText (W : WriterT) (ms : List (Text × PairVal)) :
    Json.parseObject (objectText W ms) = some (ms.map readBack) := by
  unfold Json.parseObject
  rw [lex_objectText]
  exact parseObjectTokens_objectTokens ms

/-- So does the object text followed by a line feed. -/
theorem parseObject_objectText_line (W : WriterT) (ms : List (Text × PairVal)) :
    Json.parseObject (objectText W ms ++ ['\n']) = some (ms.map readBack) := by
  unfold Json.parseObject
  rw [lex_objectText_line]
  exact parseObjectTokens_objectTokens ms

/-! ## The characters of the buffer -/

theorem isEscapeName_ge (e : Char) (h : Json.isEscapeName e = true) : 32 ≤ e.toNat := by
  simp only [Json.isEscapeName, Bool.or_eq_true, decide_eq_true_eq] at h
  rcases h with ((((((rfl | rfl) | rfl) | rfl) | rfl) | rfl) | rfl) | rfl <;> decide

theorem hexDigits_ge (i : Nat) : 32 ≤ (hexDigits i).toNat := by
  unfold hexDigits
  split <;> decide

theorem isDigit_ge (c : Char) (h : c.isDigit = true) : 32 ≤ c.toNat := by
  simp only [Char.isDigit, Bool.and_eq_true, decide_eq_true_eq] at h
  have h1 : (48 : UInt32).toNat ≤ c.val.toNat := h.1
  have h2 : (48 : UInt32).toNat = 48 := rfl
  have h3 : c.val.toNat = c.toNat := rfl
  omega

theorem WriteChar_ge (x : Char) : ∀ c ∈ WriteChar x, 32 ≤ c.toNat := by
  intro c hc
  rcases WriteChar_cases x with ⟨h, _, _, h3⟩ | ⟨e, h, h1, _⟩ | ⟨i, j, h⟩
  · rw [h] at hc; simp at hc; subst hc; omega
  · rw [h] at hc; simp at hc
    rcases hc with rfl | rfl
    · decide
    · exact isEscapeName_ge _ h1
  · rw [h] at hc; simp at hc
    rcases hc with rfl | rfl | rfl | rfl | rfl
    · decide
    · decide
    · decide
    · exact hexDigits_ge i
    · exact hexDigits_ge j

theorem WriteString_ge (s : Text) : ∀ c ∈ WriteString s, 32 ≤ c.toNat := by
  intro c hc
  simp only [WriteString, List.mem_cons, List.mem_append, List.mem_flatMap, List.mem_singleton,
    List.not_mem_nil, or_false] at hc
  rcases hc with rfl | ⟨x, _, hx⟩ | rfl
  · decide
  · exact WriteChar_ge x c hx
  · decide

theorem text_ge (v : PairVal) : ∀ c ∈ v.text, 32 ≤ c.toNat := by
  intro c hc
  cases v with
  | integral val => exact isDigit_ge c (u32toa_digits _ c hc)
  | cstr val => exact WriteString_ge _ c hc
  | boolean b =>
    cases b <;> simp [PairVal.text, WriteBool] at hc
    · rcases hc with rfl | rfl | rfl | rfl | rfl <;> decide
    · rcases hc with rfl | rfl | rfl | rfl <;> decide

theorem memberText_ge (W : WriterT) (m : Text × PairVal) :
    ∀ c ∈ memberText W m, 32 ≤ c.toNat := by
  intro c hc
  obtain ⟨k, v⟩ := m
  cases W <;>
    simp only [memberText, List.mem_append, List.mem_cons] at hc
  · rcases hc with h | rfl | h
    · exact WriteString_ge k c h
    · decide
    · exact text_ge v c h
  · rcases hc with h | rfl | rfl | h
    · exact WriteString_ge k c h
    · decide
    · decide
    · exact text_ge v c h

theorem tailText_compact_ge (rest : List (Text × PairVal)) :
    ∀ c ∈ tailText .compact rest, 32 ≤ c.toNat := by
  induction rest with
  | nil => intro c hc; simp [tailText] at hc
  | cons m rest ih =>
    intro c hc
    simp only [tailText, separator, List.mem_append, List.mem_singleton] at hc
    rcases hc with rfl | h | h
    · decide
    · exact memberText_ge _ m c h
    · exact ih c h

theorem tailText_pretty_ge (rest : List (Text × PairVal)) :
    ∀ c ∈ tailText .pretty rest, 32 ≤ c.toNat ∨ c = '\n' := by
  induction rest with
  | nil => intro c hc; simp [tailText] at hc; exact Or.inr hc
  | cons m rest ih =>
    intro c hc
    simp only [tailText, separator, List.mem_append, List.mem_cons, List.not_mem_nil,
      or_false] at hc
    rcases hc with (rfl | rfl | rfl | rfl | rfl | rfl) | h | h
    · exact Or.inl (by decide)
    · exact Or.inr rfl
    · exact Or.inl (by decide)
    · exact Or.inl (by decide)
    · exact Or.inl (by decide)
    · exact Or.inl (by decide)
    · exact Or.inl (memberText_ge _ m c h)
    · exact ih c h

/-- No character of the compact object text is a control character. -/
theorem objectText_compact_ge (ms : List (Text × PairVal)) :
    ∀ c ∈ objectText .compact ms, 32 ≤ c.toNat := by
  intro c hc
  cases ms with
  | nil =>
    simp [objectText] at hc
    rcases hc with rfl | rfl <;> decide
  | cons m rest =>
    simp only [objectText, List.mem_append, List.mem_cons, List.not_mem_nil, or_false] at hc
    rcases hc with rfl | h | h | rfl
    · decide
    · exact memberText_ge _ m c h
    · exact tailText_compact_ge rest c h
    · decide

/-- The only control characters of the pretty object text are line feeds. -/
theorem objectText_pretty_ge (ms : List (Text × PairVal)) :
    ∀ c ∈ objectText .pretty ms, 32 ≤ c.toNat ∨ c = '\n' := by
  intro c hc
  cases ms with
  | nil =>
    simp [objectText] at hc
    rcases hc with rfl | rfl <;> exact Or.inl (by decide)
  | cons m rest =>
    simp only [objectText, List.mem_append, List.mem_cons, List.not_mem_nil, or_false] at hc
    rcases hc with rfl | rfl | rfl | rfl | rfl | rfl | h | h | rfl
    · exact Or.inl (by decide)
    · exact Or.inr rfl
    · exact Or.inl (by decide)
    · exact Or.inl (by decide)
    · exact Or.inl (by decide)
    · exact Or.inl (by decide)
    · exact Or.inl (memberText_ge _ m c h)
    · exact tailText_pretty_ge rest c h
    · exact Or.inl (by decide)

/-- The buffer holds no NUL, so `GetString` shows all of it. -/
theorem GetString_objectText (W : WriterT) (ms : List (Text × PairVal)) :
    GetString (objectText W ms) = objectText W ms := by
  unfold GetString
  apply List.takeWhile_eq_self_iff.mpr
  intro c hc
  have hne : c ≠ '\x00' := by
    rintro rfl
    cases W
    · exact absurd (objectText_compact_ge ms _ hc) (by decide)
    · rcases objectText_pretty_ge ms _ hc with h | h
      · exact absurd h (by decide)
      · exact absurd h (by decide)
  simpa using hne

theorem insert_insert (os : ostream) (s t : Text) :
    (os.insert s).insert t = os.insert (s ++ t) := by
  unfold ostream.insert
  cases hg : os.good <;> simp [hg]

/-- What `pack_event` does to the stream, in closed form: it inserts the
object text of the event's pairs and a line feed. -/
theorem pack_event_eq (W : WriterT) (os : ostream) (e : Event) :
    pack_event W os e = some (os.insert (objectText W e.pairs ++ ['\n'])) := by
  simp [pack_event, buffer_eq, GetString_objectText, insert_insert]

/-! ## `u32toa` writes decimal notation -/

theorem hexDigits_eq_digitChar (d : Nat) (h : d < 10) : hexDigits d = Nat.digitChar d := by
  interval_cases d <;> rfl

theorem u32toaAux_eq_toDigitsCore (f1 : Nat) : ∀ (n f2 : Nat) (acc : Text),
    n < 10 ^ (f1 + 1) → n < f2 →
    u32toaAux (f1 + 1) n acc = Nat.toDigitsCore 10 f2 n acc := by
  induction f1 with
  | zero =>
    intro n f2 acc h1 h2
    obtain ⟨k, rfl⟩ : ∃ k, f2 = k + 1 := ⟨f2 - 1, by omega⟩
    have hn : n < 10 := by simpa using h1
    have hd : n / 10 = 0 := by omega
    have hm : n % 10 = n := by omega
    simp [u32toaAux, Nat.toDigitsCore, hn, hd, hm, hexDigits_eq_digitChar n hn]
  | succ f ih =>
    intro n f2 acc h1 h2
    obtain ⟨k, rfl⟩ : ∃ k, f2 = k + 1 := ⟨f2 - 1, by omega⟩
    by_cases hn : n < 10
    · have hd : n / 10 = 0 := by omega
      have hm : n % 10 = n := by omega
      simp [u32toaAux, Nat.toDigitsCore, hn, hd, hm, hexDigits_eq_digitChar n hn]
    · have hd : n / 10 ≠ 0 := by omega
      have hlt : n / 10 < 10 ^ (f + 1) := by
        rw [Nat.pow_succ] at h1
        omega
      have hk : n / 10 < k := by omega
      rw [u32toaAux]
      simp only [hn, if_false]
      rw [ih (n / 10) k _ hlt hk]
      simp [Nat.toDigitsCore, hd, hexDigits_eq_digitChar (n % 10) (Nat.mod_lt _ (by decide))]

/-- For a 32-bit value `u32toa` writes the usual decimal notation. -/
theorem u32toa_eq_repr (u : Nat) (h : u < 4294967296) : u32toa u = (Nat.repr u).toList := by
  have h1 : u < 10 ^ (9 + 1) := by omega
  have := u32toaAux_eq_toDigitsCore 9 u (u + 1) [] h1 (by omega)
  simpa [u32toa, Nat.repr, Nat.toDigits, List.asString] using this

/-! ## Reading a written string back -/

theorem members_eventPairs (e : Event) :
    (eventPairs e).map readBack =
      [("event_id".toList, Json.Value.number (u32toa e.event_id.val)),
       ("event_reference".toList, Json.Value.number (u32toa e.event_reference.val)),
       ("ref_time".toList, Json.Value.number (u32toa (toUnsigned e.ref_time.tv_sec))),
       ("alt_msg".toList, Json.Value.string ((e.alt_msg.getD []).flatMap WriteChar))] := by
  simp only [eventPairs, List.map, readBack, PairVal.value, toUnsigned_uint32]
  rfl

theorem members_sigPairs (si : SigInfo) :
    (sigPairs si).map readBack =
      [("gid".toList, Json.Value.number (u32toa si.generator.val)),
       ("sid".toList, Json.Value.number (u32toa si.id.val)),
       ("rev".toList, Json.Value.number (u32toa si.rev.val)),
       ("classification".toList, Json.Value.number (u32toa si.class_id.val)),
       ("priority".toList, Json.Value.number (u32toa si.priority.val)),
       ("message".toList, Json.Value.string ((si.message.getD []).flatMap WriteChar)),
       ("text_rule".toList, Json.Value.string ((si.text_rule.getD []).flatMap WriteChar))] := by
  simp only [sigPairs, List.map, readBack, PairVal.value, toUnsigned_uint32]
  rfl

/-! ## The claims -/

/-- C1: for every alert record whose signature is present, and for both
writers, the text `pack_event` builds (and puts on the stream, followed by a
line feed) parses as an object whose keys are, in this order, with no other
key and no repeated key: event_id, event_reference, ref_time, alt_msg, gid,
sid, rev, classification, priority, message, text_rule. -/
theorem C1_keys_with_signature (W : WriterT) (e : Event) (si : SigInfo) :
    ∃ text ks,
      pack_event.buffer W { e with sig_info := some si } = some text ∧
      (∀ os, pack_event W os { e with sig_info := some si } = some (os.insert (text ++ ['\n']))) ∧
      Json.keys text = some ks ∧
      ks = ["event_id".toList, "event_reference".toList, "ref_time".toList, "alt_msg".toList,
            "gid".toList, "sid".toList, "rev".toList, "classification".toList,
            "priority".toList, "message".toList, "text_rule".toList] ∧
      ks.Nodup := by
  refine ⟨_, _, buffer_eq W _, fun os => pack_event_eq W os _, ?_, rfl, by decide⟩
  simp only [Json.keys, parseObject_objectText, Event.pairs, List.map_append,
    members_eventPairs, members_sigPairs]
  rfl

/-- C2: for every alert record whose signature is absent, and for both
writers, the text `pack_event` builds parses as an object whose keys are
exactly event_id, event_reference, ref_time, alt_msg in this order; none of
gid, sid, rev, classification, priority, message, text_rule is a key. -/
theorem C2_keys_without_signature (W : WriterT) (e : Event) :
    ∃ text ks,
      pack_event.buffer W { e with sig_info := none } = some text ∧
      (∀ os, pack_event W os { e with sig_info := none } = some (os.insert (text ++ ['\n']))) ∧
      Json.keys text = some ks ∧
      ks = ["event_id".toList, "event_reference".toList, "ref_time".toList, "alt_msg".toList] ∧
      (∀ k ∈ ["gid".toList, "sid".toList, "rev".toList, "classification".toList,
              "priority".toList, "message".toList, "text_rule".toList], k ∉ ks) := by
  refine ⟨_, _, buffer_eq W _, fun os => pack_event_eq W os _, ?_, rfl, by decide⟩
  simp only [Json.keys, parseObject_objectText, Event.pairs, List.map_append,
    members_eventPairs]
  rfl

/-- C3: for both writers, a null `alt_msg`, a null signature `message` and a
null `text_rule` are each written as a member whose key is present and whose
value is the empty JSON string, not `null`: the object `pack_event` builds
parses to members among which the key has the value `string []`. -/
theorem C3_null_string_is_empty (W : WriterT) (e : Event) (si : SigInfo) :
    (∃ text ms,
      pack_event.buffer W { e with alt_msg := none } = some text ∧
      Json.parseObject text = some ms ∧
      ms.lookup "alt_msg".toList = some (Json.Value.string [])) ∧
    (∃ text ms,
      pack_event.buffer W { e with sig_info := some { si with message := none } } = some text ∧
      Json.parseObject text = some ms ∧
      ms.lookup "message".toList = some (Json.Value.string [])) ∧
    (∃ text ms,
      pack_event.buffer W { e with sig_info := some { si with text_rule := none } } = some text ∧
      Json.parseObject text = some ms ∧
      ms.lookup "text_rule".toList = some (Json.Value.string [])) := by
  refine ⟨⟨_, _, buffer_eq W _, parseObject_objectText W _, ?_⟩,
    ⟨_, _, buffer_eq W _, parseObject_objectText W _, ?_⟩,
    ⟨_, _, buffer_eq W _, parseObject_objectText W _, ?_⟩⟩
  · simp only [Event.pairs, List.map_append, members_eventPairs]
    rfl
  · simp only [Event.pairs, List.map_append, members_eventPairs, members_sigPairs]
    rfl
  · simp only [Event.pairs, List.map_append, members_eventPairs, members_sigPairs]
    rfl

theorem u32toa_uint32 (x : uint32_t) : u32toa x.val = (Nat.repr x.val).toList :=
  u32toa_eq_repr x.val x.isLt

/-- C5: for every alert record with a signature, the compact text is the text
of the same record without signature, up to its closing brace (so up to and
including the `alt_msg` pair), followed by the pairs gid, sid, rev,
classification, priority (decimal numbers of generator, id, rev, class_id,
priority) and message, text_rule (JSON strings), each after a comma, and the
closing brace.  The signature generator=1, id=2, rev=3, class_id=4,
priority=2, message="test sig", text_rule="alert tcp any any" on the record
event_id=7, event_reference=0, ref_time=1700000000, alt_msg=null gives the
text shown. -/
theorem C5_signature_pairs_appended :
    (∀ (e : Event) (si : SigInfo), ∃ front,
      pack_event.buffer .compact { e with sig_info := none } =
        some (front ++ "\"alt_msg\":".toList ++ WriteString (e.alt_msg.getD []) ++ "\x7d".toList) ∧
      pack_event.buffer .compact { e with sig_info := some si } =
        some (front ++ "\"alt_msg\":".toList ++ WriteString (e.alt_msg.getD []) ++
          ",\"gid\":".toList ++ (Nat.repr si.generator.val).toList ++
          ",\"sid\":".toList ++ (Nat.repr si.id.val).toList ++
          ",\"rev\":".toList ++ (Nat.repr si.rev.val).toList ++
          ",\"classification\":".toList ++ (Nat.repr si.class_id.val).toList ++
          ",\"priority\":".toList ++ (Nat.repr si.priority.val).toList ++
          ",\"message\":".toList ++ WriteString (si.message.getD []) ++
          ",\"text_rule\":".toList ++ WriteString (si.text_rule.getD []) ++ "\x7d".toList)) ∧
    pack_event.buffer .compact
        ⟨some ⟨1, 2, 3, 4, 2, some "test sig".toList, some "alert tcp any any".toList⟩,
         7, 0, ⟨1700000000, 0⟩, none⟩ =
      some ("\x7b\"event_id\":7,\"event_reference\":0,\"ref_time\":1700000000,\"alt_msg\":\"\"" ++
        ",\"gid\":1,\"sid\":2,\"rev\":3,\"classification\":4,\"priority\":2," ++
        "\"message\":\"test sig\",\"text_rule\":\"alert tcp any any\"\x7d").toList := by
  refine ⟨fun e si => ⟨"\x7b\"event_id\":".toList ++ u32toa e.event_id.val ++
      ",\"event_reference\":".toList ++ u32toa e.event_reference.val ++
      ",\"ref_time\":".toList ++ u32toa (toUnsigned e.ref_time.tv_sec) ++ [','], ?_, ?_⟩, ?_⟩
  · rw [buffer_eq]
    simp only [Event.pairs, eventPairs, objectText, tailText, separator, memberText,
      PairVal.text, toUnsigned_uint32, List.append_nil]
    simp [WriteString, WriteChar, escape]
  · rw [buffer_eq]
    simp only [Event.pairs, eventPairs, sigPairs, List.cons_append, List.nil_append]
    simp only [objectText, tailText, separator, memberText,
      PairVal.text, toUnsigned_uint32, u32toa_uint32, List.append_nil]
    simp [WriteString, WriteChar, escape]
  · rw [buffer_eq]
    rfl

/-- C6: for every alert record, the compact output and the pretty output of
`pack_event` (each with its line feed) tokenize to the same tokens, which
keep every string and number as written and drop only the whitespace
between tokens, and parse to the same members: same keys, same order, same
values of the same kinds. -/
theorem C6_modes_read_back_equal (e : Event) :
    ∃ compact pretty tokens members,
      pack_event.buffer .compact e = some compact ∧
      pack_event.buffer .pretty e = some pretty ∧
      (∀ os, pack_event .compact os e = some (os.insert (compact ++ ['\n']))) ∧
      (∀ os, pack_event .pretty os e = some (os.insert (pretty ++ ['\n']))) ∧
      Json.lex .top (compact ++ ['\n']) = some tokens ∧
      Json.lex .top (pretty ++ ['\n']) = some tokens ∧
      Json.parseObject (compact ++ ['\n']) = some members ∧
      Json.parseObject (pretty ++ ['\n']) = some members :=
  ⟨_, _, _, _, buffer_eq .compact e, buffer_eq .pretty e,
    fun os => pack_event_eq .compact os e, fun os => pack_event_eq .pretty os e,
    lex_objectText_line .compact _, lex_objectText_line .pretty _,
    parseObject_objectText_line .compact _, parseObject_objectText_line .pretty _⟩

/-- C10: for every alert record, a negative seconds value included, and both
writers, each integer member of the object `pack_event` builds (event_id,
event_reference, ref_time, and with a signature gid, sid, rev,
classification, priority) is a number whose literal is a non-empty run of
decimal digits: no minus sign, no fraction, no exponent.  The seconds value
-1 is written as 4294967295. -/
theorem C10_integers_unsigned (W : WriterT) (e : Event) :
    (∃ text members,
      pack_event.buffer W e = some text ∧
      Json.parseObject text = some members ∧
      (∀ k ∈ ["event_id".toList, "event_reference".toList, "ref_time".toList],
        ∃ lit, members.lookup k = some (Json.Value.number lit) ∧ Json.isDigits lit = true) ∧
      (∀ si ∈ e.sig_info,
        ∀ k ∈ ["gid".toList, "sid".toList, "rev".toList, "classification".toList,
               "priority".toList],
          ∃ lit, members.lookup k = some (Json.Value.number lit) ∧ Json.isDigits lit = true) ∧
      (∀ m ∈ members, ∀ lit, m.2 = Json.Value.number lit → Json.isDigits lit = true)) ∧
    (∃ text members,
      pack_event.buffer W { e with ref_time := ⟨-1, 0⟩ } = some text ∧
      Json.parseObject text = some members ∧
      members.lookup "ref_time".toList = some (Json.Value.number "4294967295".toList)) := by
  have hd : ∀ u, Json.isDigits (u32toa u) = true := fun u => by
    have h1 := u32toa_ne_nil u
    have h2 : (u32toa u).all Char.isDigit = true := List.all_eq_true.mpr (u32toa_digits u)
    cases hu : u32toa u with
    | nil => exact absurd hu h1
    | cons c cs => rw [hu] at h2; simp [Json.isDigits, h2]
  have hval : ∀ v : PairVal, ∀ lit, v.value = Json.Value.number lit → Json.isDigits lit = true := by
    intro v lit h
    cases v with
    | integral val => simp only [PairVal.value, Json.Value.number.injEq] at h; rw [← h]; exact hd _
    | cstr val => simp [PairVal.value] at h
    | boolean b => simp [PairVal.value] at h
  refine ⟨⟨_, _, buffer_eq W e, parseObject_objectText W _, ?_, ?_, ?_⟩,
    ⟨_, _, buffer_eq W _, parseObject_objectText W _, ?_⟩⟩
  · intro k hk
    simp only [List.mem_cons, List.mem_singleton, List.not_mem_nil, or_false] at hk
    simp only [Event.pairs, List.map_append, members_eventPairs]
    rcases hk with rfl | rfl | rfl
    · exact ⟨_, rfl, hd _⟩
    · exact ⟨_, rfl, hd _⟩
    · exact ⟨_, rfl, hd _⟩
  · intro si hsi k hk
    have hs : e.sig_info = some si := by simpa using hsi
    simp only [List.mem_cons, List.mem_singleton, List.not_mem_nil, or_false] at hk
    simp only [Event.pairs, hs, List.map_append, members_eventPairs, members_sigPairs]
    rcases hk with rfl | rfl | rfl | rfl | rfl
    · exact ⟨_, rfl, hd _⟩
    · exact ⟨_, rfl, hd _⟩
    · exact ⟨_, rfl, hd _⟩
    · exact ⟨_, rfl, hd _⟩
    · exact ⟨_, rfl, hd _⟩
  · intro m hm lit hlit
    obtain ⟨p, _, rfl⟩ := List.mem_map.mp hm
    exact hval p.2 lit hlit
  · simp only [Event.pairs, List.map_append, members_eventPairs]
    rfl

/-! ## The logger: what `alert`, `open` and `close` do -/

theorem alert_eq (s : JsonLogger) (w : World) (msg : Option Text) (e : Event) (os : ostream)
    (h : w.deref s.stream = some os) :
    s.alert w msg e =
      some (s, w.store s.stream (os.insert (objectText s.writer e.pairs ++ ['\n'])).flush) := by
  unfold JsonLogger.alert JsonLogger.writer
  rw [h]
  cases s.pretty <;> simp [pack_event_eq]

theorem alert_none (s : JsonLogger) (w : World) (msg : Option Text) (e : Event)
    (h : w.deref s.stream = none) : s.alert w msg e = none := by
  unfold JsonLogger.alert
  rw [h]
  rfl

theorem store_cout_of_heap (w : World) (addr : Nat) (os1 : ostream) :
    (w.store (.heap addr) os1).cout = w.cout ∧ (w.store (.heap addr) os1).cerr = w.cerr :=
  ⟨rfl, rfl⟩

theorem boundOn_store (s : JsonLogger) (w : World) (p : StreamPtr) (os1 : ostream)
    (h : s.boundOn w = true) : s.boundOn (w.store p os1) = true := by
  unfold JsonLogger.boundOn at h ⊢
  split_ifs at h ⊢ with h1 h2
  · exact h
  · exact h
  · cases hs : s.stream with
    | heap a =>
      rw [hs] at h
      cases p with
      | heap b =>
        simp only [World.store, List.get?_eq_getElem?, List.getElem?_modify] at h ⊢
        cases hg : w.heap[a]? with
        | none => simp [hg] at h
        | some hh =>
          simp only [hg] at h
          by_cases hab : b = a
          · simpa [hab, hg] using h
          · simpa [hab, hg] using h
      | null => exact h
      | cout => exact h
      | cerr => exact h
    | null => rw [hs] at h; simp at h
    | cout => rw [hs] at h; simp at h
    | cerr => rw [hs] at h; simp at h

theorem deref_of_boundOn (s : JsonLogger) (w : World) (h : s.boundOn w = true) :
    ∃ os, w.deref s.stream = some os := by
  unfold JsonLogger.boundOn at h
  split_ifs at h with h1 h2
  · have hs : s.stream = .cout := by simpa using h
    exact ⟨w.cout, by rw [hs]; rfl⟩
  · have hs : s.stream = .cerr := by simpa using h
    exact ⟨w.cerr, by rw [hs]; rfl⟩
  · cases hs : s.stream with
    | heap a =>
      rw [hs] at h
      simp only [List.get?_eq_getElem?] at h
      cases hg : w.heap[a]? with
      | none => simp [hg] at h
      | some hh =>
        simp only [hg] at h
        exact ⟨hh.os, by simp [World.deref, hg, h]⟩
    | null => rw [hs] at h; simp at h
    | cout => rw [hs] at h; simp at h
    | cerr => rw [hs] at h; simp at h

theorem stream_ne_null_of_boundOn (s : JsonLogger) (w : World) (h : s.boundOn w = true) :
    s.stream ≠ .null := by
  obtain ⟨os, hos⟩ := deref_of_boundOn s w h
  intro hn
  rw [hn] at hos
  simp [World.deref] at hos

theorem open_file (path : Text) (pretty : Bool) (w : World)
    (h0 : path ≠ []) (h1 : path ≠ "stdout".toList) (h2 : path ≠ "stderr".toList) :
    (JsonLogger.new path pretty).open w =
      some ({ path := path, pretty := pretty, stream := .heap w.heap.length },
            { w with heap := w.heap ++
                [{ path := path,
                   os := { good := decide (path ∉ w.refused), pending := [], device := [],
                           full := decide (path ∉ w.refused ∧ path ∈ w.full) },
                   live := true }] }) := by
  unfold JsonLogger.open JsonLogger.new
  rw [if_neg (by simp), if_neg h0, if_neg h1, if_neg h2]
  rfl

theorem open_stdout (pretty : Bool) (w : World) :
    (JsonLogger.new "stdout".toList pretty).open w =
      some ({ path := "stdout".toList, pretty := pretty, stream := .cout }, w) := by
  simp [JsonLogger.open, JsonLogger.new]

theorem open_stderr (pretty : Bool) (w : World) :
    (JsonLogger.new "stderr".toList pretty).open w =
      some ({ path := "stderr".toList, pretty := pretty, stream := .cerr }, w) := by
  simp [JsonLogger.open, JsonLogger.new]

/-- After `open` on a newly constructed logger with a non-empty destination
the logger is the same but for `stream`, which is bound. -/
theorem open_bound (c : Char) (cs : Text) (pretty : Bool) (w : World) :
    ∃ p w1, (JsonLogger.new (c :: cs) pretty).open w =
        some ({ path := c :: cs, pretty := pretty, stream := p }, w1) ∧
      JsonLogger.boundOn { path := c :: cs, pretty := pretty, stream := p } w1 = true := by
  by_cases h1 : c :: cs = "stdout".toList
  · rw [h1]
    exact ⟨_, _, open_stdout pretty w, by simp [JsonLogger.boundOn]⟩
  · by_cases h2 : c :: cs = "stderr".toList
    · rw [h2]
      exact ⟨_, _, open_stderr pretty w, by simp [JsonLogger.boundOn]⟩
    · refine ⟨_, _, open_file (c :: cs) pretty w (by simp) h1 h2, ?_⟩
      unfold JsonLogger.boundOn
      rw [if_neg h1, if_neg h2]
      simp

/-- C12: `open` on a Closed sink binds `std::cout` when the destination is
exactly "stdout", `std::cerr` when it is exactly "stderr", and otherwise
(for every other non-empty destination, "Stdout", "STDERR", " stdout" and
"stdout " among them) a stream made by `new std::ofstream(path)` at an
address not in use before, which the sink owns (good unless the file system
refuses the path, on the device the path opens); the shared streams are as
before. -/
theorem C12_open_binds_by_destination (pretty : Bool) (w : World) :
    (JsonLogger.new "stdout".toList pretty).open w =
      some ({ path := "stdout".toList, pretty := pretty, stream := .cout }, w) ∧
    (JsonLogger.new "stderr".toList pretty).open w =
      some ({ path := "stderr".toList, pretty := pretty, stream := .cerr }, w) ∧
    (∀ path : Text, path ≠ [] → path ≠ "stdout".toList → path ≠ "stderr".toList →
      ∃ w1, (JsonLogger.new path pretty).open w =
          some ({ path := path, pretty := pretty, stream := .heap w.heap.length }, w1) ∧
        w.heap.get? w.heap.length = none ∧
        w1.heap.get? w.heap.length =
          some { path := path,
                 os := { good := decide (path ∉ w.refused), pending := [], device := [],
                         full := decide (path ∉ w.refused ∧ path ∈ w.full) },
                 live := true } ∧
        (∀ addr < w.heap.length, w1.heap.get? addr = w.heap.get? addr) ∧
        w1.cout = w.cout ∧ w1.cerr = w.cerr) ∧
    (∀ path ∈ ["Stdout".toList, "STDERR".toList, " stdout".toList, "stdout ".toList],
      ((JsonLogger.new path pretty).open w).map (fun r => r.1.stream) =
        some (.heap w.heap.length)) := by
  refine ⟨open_stdout pretty w, open_stderr pretty w, fun path h0 h1 h2 => ?_, ?_⟩
  · refine ⟨_, open_file path pretty w h0 h1 h2, by simp, by simp, ?_, rfl, rfl⟩
    intro addr ha
    simp [List.getElem?_append_left ha]
  · intro path hp
    simp only [List.mem_cons, List.mem_singleton, List.not_mem_nil, or_false] at hp
    rcases hp with rfl | rfl | rfl | rfl <;>
      (rw [open_file _ pretty w (by decide) (by decide) (by decide)]; rfl)

theorem close_eq (s : JsonLogger) (w : World) (h : s.boundOn w = true) :
    s.close w =
      if s.path = "stdout".toList ∨ s.path = "stderr".toList then
        some ({ s with stream := .null }, w)
      else
        (w.delete s.stream).map (fun w1 => ({ s with stream := .null }, w1)) := by
  have hn := stream_ne_null_of_boundOn s w h
  unfold JsonLogger.close
  rw [if_neg hn]
  by_cases h1 : s.path = "stdout".toList
  · rw [if_neg (by simp [h1]), if_pos (Or.inl h1)]
    rfl
  · by_cases h2 : s.path = "stderr".toList
    · rw [if_neg (by simp [h2]), if_pos (Or.inr h2)]
      rfl
    · rw [if_pos ⟨h1, h2⟩, if_neg (not_or.mpr ⟨h1, h2⟩)]
      cases w.delete s.stream <;> rfl

/-- What `close` does on a sink whose stream is bound. -/
theorem close_of_bound (s : JsonLogger) (w : World)
    (hopen : s.boundOn w = true) :
    ∃ w1, s.close w = some ({ path := s.path, pretty := s.pretty, stream := .null }, w1) ∧
      w1.cout = w.cout ∧ w1.cerr = w.cerr ∧
      (s.path = "stdout".toList ∨ s.path = "stderr".toList → w1 = w) ∧
      (s.path ≠ "stdout".toList → s.path ≠ "stderr".toList →
        ∃ addr h0, s.stream = .heap addr ∧
          w.heap.get? addr = some h0 ∧ h0.live = true ∧
          w1.heap.get? addr = some { path := h0.path, os := h0.os.flush, live := false } ∧
          (∀ other, other ≠ addr → w1.heap.get? other = w.heap.get? other) ∧
          w1.delete (.heap addr) = none) := by
  rw [close_eq s w hopen]
  by_cases h1 : s.path = "stdout".toList
  · exact ⟨w, by rw [if_pos (Or.inl h1)], rfl, rfl, fun _ => rfl, fun h => absurd h1 h⟩
  · by_cases h2 : s.path = "stderr".toList
    · exact ⟨w, by rw [if_pos (Or.inr h2)], rfl, rfl, fun _ => rfl, fun _ h => absurd h2 h⟩
    · have hb := hopen
      unfold JsonLogger.boundOn at hb
      rw [if_neg h1, if_neg h2] at hb
      cases hs : s.stream with
      | heap addr =>
        rw [hs] at hb
        simp only [List.get?_eq_getElem?] at hb
        cases hg : w.heap[addr]? with
        | none => simp [hg] at hb
        | some h0 =>
          simp only [hg] at hb
          refine ⟨{ w with
              heap := w.heap.modify (fun h => { h with os := h.os.flush, live := false }) addr },
            ?_, rfl, rfl, ?_, ?_⟩
          · rw [if_neg (not_or.mpr ⟨h1, h2⟩)]
            simp [World.delete, hg, hb]
          · rintro (h | h)
            · exact absurd h h1
            · exact absurd h h2
          · intro _ _
            refine ⟨addr, h0, rfl, by simp [hg], hb, ?_, ?_, ?_⟩
            · simp [List.getElem?_modify_eq, hg]
            · intro other ho
              simp [List.getElem?_modify_ne _ _ (Ne.symm ho)]
            · simp [World.delete, List.getElem?_modify_eq, hg]
      | null => rw [hs] at hb; simp at hb
      | cout => rw [hs] at hb; simp at hb
      | cerr => rw [hs] at hb; simp at hb

/-- C13: `close` on an Open sink leaves it Closed.  With the destination
"stdout" or "stderr" nothing else changes: the shared stream is neither
closed nor freed.  With a file destination the shared streams are as before
and the stream the sink owns, allocated before, is flushed and freed; the
other streams are as before, and freeing it a second time would be
undefined. -/
theorem C13_close_releases_owned_stream_only (s : JsonLogger) (w : World)
    (hopen : s.boundOn w = true) :
    ∃ w1, s.close w = some ({ path := s.path, pretty := s.pretty, stream := .null }, w1) ∧
      w1.cout = w.cout ∧ w1.cerr = w.cerr ∧
      (s.path = "stdout".toList ∨ s.path = "stderr".toList → w1 = w) ∧
      (s.path ≠ "stdout".toList → s.path ≠ "stderr".toList →
        ∃ addr h0, s.stream = .heap addr ∧
          w.heap.get? addr = some h0 ∧ h0.live = true ∧
          w1.heap.get? addr = some { path := h0.path, os := h0.os.flush, live := false } ∧
          (∀ other, other ≠ addr → w1.heap.get? other = w.heap.get? other) ∧
          w1.delete (.heap addr) = none) :=
  close_of_bound s w hopen

/-- C13 at a concrete input: a sink bound to the file stream of the example
world. -/
theorem C13_witness :
    JsonLogger.boundOn ⟨"alert.json".toList, false, .heap 0⟩ exampleWorld = true ∧
    ∃ w1, JsonLogger.close ⟨"alert.json".toList, false, .heap 0⟩ exampleWorld =
        some (⟨"alert.json".toList, false, .null⟩, w1) ∧
      w1.cout = exampleWorld.cout :=
  ⟨by decide,
    (C13_close_releases_owned_stream_only ⟨"alert.json".toList, false, .heap 0⟩ exampleWorld
      (by decide)).imp (fun _ h => ⟨h.1, h.2.1⟩)⟩

theorem alert_bound (s : JsonLogger) (w : World) (msg : Option Text) (e : Event)
    (h : s.boundOn w = true) :
    ∃ w1, s.alert w msg e = some (s, w1) ∧ s.boundOn w1 = true ∧
      w1.refused = w.refused ∧ w1.heap.length = w.heap.length := by
  obtain ⟨os, hos⟩ := deref_of_boundOn s w h
  refine ⟨_, alert_eq s w msg e os hos, boundOn_store s w _ _ h, ?_, ?_⟩
  · cases s.stream <;> rfl
  · cases s.stream <;> simp [World.store]

/-- A run of `alert` calls on a bound sink returns, with the sink unchanged
and still bound. -/
theorem alerts_bound (events : List (Option Text × Event)) : ∀ (s : JsonLogger) (w : World),
    s.boundOn w = true →
    ∃ w1, JsonLogger.alerts s w events = some (s, w1) ∧ s.boundOn w1 = true := by
  induction events with
  | nil => intro s w h; exact ⟨w, rfl, h⟩
  | cons ev rest ih =>
    intro s w h
    obtain ⟨msg, e⟩ := ev
    obtain ⟨w1, ha, hb, _, _⟩ := alert_bound s w msg e h
    obtain ⟨w2, hr, hb2⟩ := ih s w1 hb
    exact ⟨w2, by simp [JsonLogger.alerts, ha, hr], hb2⟩

theorem close_bound (s : JsonLogger) (w : World) (h : s.boundOn w = true) :
    ∃ w1, s.close w = some ({ path := s.path, pretty := s.pretty, stream := .null }, w1) :=
  (close_of_bound s w h).imp (fun _ hw => hw.1)

theorem alerts_take_bound (events : List (Option Text × Event)) (s : JsonLogger) (w : World)
    (h : s.boundOn w = true) (n : Nat) :
    ∃ wn, JsonLogger.alerts s w (events.take n) = some (s, wn) ∧
      (wn.deref s.stream).isSome = true := by
  obtain ⟨wn, hr, hb⟩ := alerts_bound (events.take n) s w h
  obtain ⟨os, hos⟩ := deref_of_boundOn s wn hb
  exact ⟨wn, hr, by simp [hos]⟩

/-- The call sequence `open`, `alert` for every event, `close` on a newly
constructed logger with a non-empty destination, step by step. -/
theorem cycle_steps (c : Char) (cs : Text) (pretty : Bool) (w : World)
    (events : List (Option Text × Event)) :
    ∃ s1 w1 w2 w3,
      (JsonLogger.new (c :: cs) pretty).open w = some (s1, w1) ∧
      s1.stream ≠ .null ∧ s1.path = c :: cs ∧ s1.pretty = pretty ∧
      (∀ n, ∃ wn, JsonLogger.alerts s1 w1 (events.take n) = some (s1, wn) ∧
        (wn.deref s1.stream).isSome = true) ∧
      JsonLogger.alerts s1 w1 events = some (s1, w2) ∧
      s1.close w2 = some (JsonLogger.new (c :: cs) pretty, w3) ∧
      (JsonLogger.new (c :: cs) pretty).cycle w events =
        some (JsonLogger.new (c :: cs) pretty, w3) := by
  obtain ⟨p, w1, ho, hb⟩ := open_bound c cs pretty w
  obtain ⟨w2, ha, hb2⟩ := alerts_bound events _ w1 hb
  obtain ⟨w3, hc⟩ := close_bound _ w2 hb2
  refine ⟨_, w1, w2, w3, ho, stream_ne_null_of_boundOn _ w1 hb, rfl, rfl,
    fun n => alerts_take_bound events _ w1 hb n, ha, hc, ?_⟩
  simp [JsonLogger.cycle, ho, ha]
  exact hc

/-- C14: a newly constructed sink is Closed; for one constructed with a
non-empty destination, `open` returns with a stream bound (Closed to Open),
every `alert` of the call sequence finds a stream bound and returns, and
`close` returns with no stream bound (Open to Closed): no assertion of
`open` or `close` fails, whatever the events and the world. -/
theorem C14_lifecycle_has_no_failed_assertion (c : Char) (cs : Text) (pretty : Bool)
    (w : World) (events : List (Option Text × Event)) :
    (JsonLogger.new (c :: cs) pretty).stream = .null ∧
    ∃ s1 w1 w2 w3,
      (JsonLogger.new (c :: cs) pretty).open w = some (s1, w1) ∧
      s1.stream ≠ .null ∧
      (∀ n, ∃ wn, JsonLogger.alerts s1 w1 (events.take n) = some (s1, wn) ∧
        (wn.deref s1.stream).isSome = true) ∧
      JsonLogger.alerts s1 w1 events = some (s1, w2) ∧
      s1.close w2 = some (JsonLogger.new (c :: cs) pretty, w3) ∧
      (JsonLogger.new (c :: cs) pretty).stream = .null ∧
      (JsonLogger.new (c :: cs) pretty).cycle w events =
        some (JsonLogger.new (c :: cs) pretty, w3) := by
  obtain ⟨s1, w1, w2, w3, ho, hn, _, _, ht, ha, hc, hy⟩ := cycle_steps c cs pretty w events
  exact ⟨rfl, s1, w1, w2, w3, ho, hn, ht, ha, hc, rfl, hy⟩

theorem open_frame (s : JsonLogger) (w : World) :
    ∀ r ∈ s.open w, r.1.path = s.path ∧ r.1.pretty = s.pretty := by
  intro r hr
  unfold JsonLogger.open at hr
  split_ifs at hr <;> simp at hr
  · rw [← hr]; exact ⟨rfl, rfl⟩
  · rw [← hr]; exact ⟨rfl, rfl⟩
  · rw [← hr]; exact ⟨rfl, rfl⟩

theorem close_frame (s : JsonLogger) (w : World) :
    ∀ r ∈ s.close w, r.1.path = s.path ∧ r.1.pretty = s.pretty := by
  intro r hr
  unfold JsonLogger.close at hr
  split_ifs at hr
  · simp at hr
  · cases hd : w.delete s.stream with
    | none => simp [hd] at hr
    | some w1 =>
      simp [hd] at hr
      rw [← hr]; exact ⟨rfl, rfl⟩
  · simp at hr
    rw [← hr]; exact ⟨rfl, rfl⟩

theorem alert_frame (s : JsonLogger) (w : World) (msg : Option Text) (e : Event) :
    ∀ r ∈ s.alert w msg e, r.1 = s := by
  intro r hr
  cases hd : w.deref s.stream with
  | none => rw [alert_none s w msg e hd] at hr; simp at hr
  | some os =>
    rw [alert_eq s w msg e os hd] at hr
    simp at hr
    rw [← hr]

/-- C20: on a newly constructed sink with a non-empty destination, `open`
followed by `close` returns the sink as it was constructed (no stream
bound, same destination, same `pretty` flag), so the assertions of `open`
hold again: a second `open`, `alert`..., `close` on it returns as the
first one does, with the sink as constructed once more.  Whenever `open`,
`alert` or `close` returns, on any sink, destination and `pretty` flag are
as before. -/
theorem C20_open_close_restores_sink (c : Char) (cs : Text) (pretty : Bool) (w : World)
    (first second : List (Option Text × Event)) :
    (∃ s1 w1 w2,
      (JsonLogger.new (c :: cs) pretty).open w = some (s1, w1) ∧
      s1.close w1 = some (JsonLogger.new (c :: cs) pretty, w2)) ∧
    (∃ w1 w2,
      (JsonLogger.new (c :: cs) pretty).cycle w first =
        some (JsonLogger.new (c :: cs) pretty, w1) ∧
      (JsonLogger.new (c :: cs) pretty).cycle w1 second =
        some (JsonLogger.new (c :: cs) pretty, w2)) ∧
    (∀ (s : JsonLogger) (v : World) (msg : Option Text) (e : Event),
      (∀ r ∈ s.open v, r.1.path = s.path ∧ r.1.pretty = s.pretty) ∧
      (∀ r ∈ s.alert v msg e, r.1.path = s.path ∧ r.1.pretty = s.pretty) ∧
      (∀ r ∈ s.close v, r.1.path = s.path ∧ r.1.pretty = s.pretty)) := by
  refine ⟨?_, ?_, fun s v msg e => ⟨open_frame s v, ?_, close_frame s v⟩⟩
  · obtain ⟨s1, w1, w2, w3, ho, _, _, _, _, ha, hc, _⟩ := cycle_steps c cs pretty w []
    have : w2 = w1 := by simpa [JsonLogger.alerts] using ha.symm
    subst this
    exact ⟨s1, _, w3, ho, hc⟩
  · obtain ⟨_, _, _, w1, _, _, _, _, _, _, _, h1⟩ := cycle_steps c cs pretty w first
    obtain ⟨_, _, _, w2, _, _, _, _, _, _, _, h2⟩ := cycle_steps c cs pretty w1 second
    exact ⟨w1, w2, h1, h2⟩
  · intro r hr
    rw [alert_frame s v msg e r hr]
    exact ⟨rfl, rfl⟩

theorem modify_same (l : List HeapStream) (addr : Nat) (h0 : HeapStream) (os : ostream)
    (hg : l[addr]? = some h0) (hos : h0.os = os) :
    l.modify (fun h => { h with os := os }) addr = l := by
  apply List.ext_getElem?
  intro i
  rw [List.getElem?_modify]
  by_cases hi : addr = i
  · subst hi
    simp [hg, ← hos]
  · simp [hi]

/-- Storing back the stream a pointer already points to changes nothing. -/
theorem store_same (w : World) (p : StreamPtr) (os : ostream) (h : w.deref p = some os) :
    w.store p os = w := by
  cases p with
  | null => rfl
  | cout =>
    have : w.cout = os := by simpa [World.deref] using h
    subst this; rfl
  | cerr =>
    have : w.cerr = os := by simpa [World.deref] using h
    subst this; rfl
  | heap addr =>
    simp only [World.deref, List.get?_eq_getElem?] at h
    cases hg : w.heap[addr]? with
    | none => simp [hg] at h
    | some h0 =>
      simp only [hg] at h
      by_cases hl : h0.live = true
      · simp only [hl, if_true, Option.some.injEq] at h
        simp only [World.store, modify_same w.heap addr h0 os hg h]
      · simp [hl] at h

/-- On a stream that is not good `alert` changes nothing. -/
theorem alert_dropped (s : JsonLogger) (w : World) (msg : Option Text) (e : Event)
    (os : ostream) (h : w.deref s.stream = some os) (hbad : os.good = false) :
    s.alert w msg e = some (s, w) := by
  rw [alert_eq s w msg e os h]
  have : (os.insert (objectText s.writer e.pairs ++ ['\n'])).flush = os := by
    simp [ostream.insert, ostream.flush, hbad]
  rw [this, store_same w s.stream os h]

theorem alerts_dropped (events : List (Option Text × Event)) (s : JsonLogger) (w : World)
    (os : ostream) (h : w.deref s.stream = some os) (hbad : os.good = false) :
    JsonLogger.alerts s w events = some (s, w) := by
  induction events with
  | nil => rfl
  | cons ev rest ih =>
    obtain ⟨msg, e⟩ := ev
    simp [JsonLogger.alerts, alert_dropped s w msg e os h hbad, ih]

/-- C15, as the code has it: when the destination is a file path the file
system refuses, `open` returns as it does for a path that opens, with no
failure reported: the sink is Open, bound to a newly made file stream that
is not good.  The shared streams are untouched and no other destination is
bound; every `alert` afterwards returns and changes nothing, so no record
is written anywhere. -/
theorem C15_open_failure_is_silent (path : Text) (pretty : Bool) (w : World)
    (events : List (Option Text × Event))
    (h0 : path ≠ []) (h1 : path ≠ "stdout".toList) (h2 : path ≠ "stderr".toList)
    (hrefused : path ∈ w.refused) :
    ∃ w1 : World,
      (JsonLogger.new path pretty).open w =
        some ({ path := path, pretty := pretty, stream := .heap w.heap.length }, w1) ∧
      w1.deref (.heap w.heap.length) = some { good := false, pending := [], device := [] } ∧
      w1.cout = w.cout ∧ w1.cerr = w.cerr ∧
      JsonLogger.alerts { path := path, pretty := pretty, stream := .heap w.heap.length } w1
        events =
        some ({ path := path, pretty := pretty, stream := .heap w.heap.length }, w1) := by
  have hd : (World.deref
      { w with heap := w.heap ++
          [{ path := path,
             os := { good := decide (path ∉ w.refused), pending := [], device := [],
                     full := decide (path ∉ w.refused ∧ path ∈ w.full) },
             live := true }] }
      (.heap w.heap.length)) = some { good := false, pending := [], device := [] } := by
    simp [World.deref, hrefused]
  exact ⟨_, open_file path pretty w h0 h1 h2, hd, rfl, rfl,
    alerts_dropped events _ _ _ hd rfl⟩

/-- C15 at a concrete input: the refused path of the example world. -/
theorem C15_witness :
    "/no/such/dir/alert.json".toList ∈ exampleWorld.refused ∧
    ∃ w1 : World,
      (JsonLogger.new "/no/such/dir/alert.json".toList false).open exampleWorld =
        some (⟨"/no/such/dir/alert.json".toList, false, .heap 1⟩, w1) ∧
      w1.deref (.heap 1) = some { good := false, pending := [], device := [] } :=
  ⟨by decide,
    (C15_open_failure_is_silent "/no/such/dir/alert.json".toList false exampleWorld []
      (by decide) (by decide) (by decide) (by decide)).imp (fun _ h => ⟨h.1, h.2.1⟩)⟩

/-- C15 as stated fails: on the path the example world refuses, `open`
returns normally with a stream bound, exactly as on a path that opens, and
the `open`, `alert`, `close` sequence returns normally with nothing written
to any stream. -/
theorem C15_counterexample :
    ((JsonLogger.new "/no/such/dir/alert.json".toList false).open exampleWorld).map
        (fun r => r.1) =
      some ⟨"/no/such/dir/alert.json".toList, false, .heap 1⟩ ∧
    ((JsonLogger.new "/tmp/alert.json".toList false).open exampleWorld).map
        (fun r => r.1.stream) =
      some (.heap 1) ∧
    ((JsonLogger.new "/no/such/dir/alert.json".toList false).cycle exampleWorld
        [(none, exampleEvent)]).map
        (fun r => (r.1.stream, r.2.cout.contents, r.2.cerr.contents,
          r.2.heap.map (fun h => h.os.contents))) =
      some (.null, [], [], [[], []]) := by
  decide

/-- C16, as the code has it: `JsonModule::set` accepts the empty string for
the option path (it returns true and stores it); `json_ctor` constructs a
sink from such a module, and the empty destination is met only by the
assertion at the start of `open`, which fails on that sink in every world. -/
theorem C16_empty_path_reaches_open (m : JsonModule) (flag : Bool) (w : World) :
    m.set { name := "path".toList, str := [], flag := flag } =
      (true, { path := [], pretty := m.pretty }) ∧
    json_ctor (m.set { name := "path".toList, str := [], flag := flag }).2 =
      JsonLogger.new [] m.pretty ∧
    (JsonLogger.new [] m.pretty).open w = none :=
  ⟨rfl, rfl, rfl⟩

/-- C16 as stated fails: setting the option path to the empty string returns
true, and the sink constructed from that module has the empty destination. -/
theorem C16_counterexample :
    ((mod_ctor false).set { name := "path".toList, str := [], flag := false }).1 = true ∧
    (json_ctor ((mod_ctor false).set { name := "path".toList, str := [], flag := false }).2).path
      = [] := by
  decide

/-- C17: with no option supplied the configured module gives a sink with
destination "stdout" and `pretty` true, whatever the constructor left in
the members; with only path supplied `pretty` is true and the destination
is the supplied path; with only pretty supplied the destination is
"stdout" and `pretty` is the supplied flag. -/
theorem C17_defaults (indeterminate : Bool) :
    json_ctor (configure indeterminate []) = JsonLogger.new "stdout".toList true ∧
    (∀ (path : Text) (flag : Bool),
      json_ctor (configure indeterminate [{ name := "path".toList, str := path, flag := flag }])
        = JsonLogger.new path true) ∧
    (∀ (str : Text) (flag : Bool),
      json_ctor (configure indeterminate [{ name := "pretty".toList, str := str, flag := flag }])
        = JsonLogger.new "stdout".toList flag) := by
  refine ⟨?_, fun path flag => ?_, fun str flag => ?_⟩ <;> cases indeterminate <;> rfl

/-- C18: for every alert record and each writer there is one text that
`pack_event` inserts, with a line feed, into whatever stream it is given:
encoding the record again, on the stream the first call left or on any
other stream, inserts the same text; and `alert` on any two Open sinks with
the same `pretty` flag, whatever their destinations, worlds and earlier
calls, inserts the same text into the bound stream. -/
theorem C18_encoding_is_deterministic (W : WriterT) (e : Event) :
    ∃ text,
      pack_event.buffer W e = some text ∧
      (∀ os, pack_event W os e = some (os.insert (text ++ ['\n']))) ∧
      (∀ os, (pack_event W os e).bind (fun os1 => pack_event W os1 e) =
        some ((os.insert (text ++ ['\n'])).insert (text ++ ['\n']))) ∧
      (∀ (s : JsonLogger) (w : World) (msg : Option Text) (os : ostream),
        s.writer = W → w.deref s.stream = some os →
        s.alert w msg e = some (s, w.store s.stream (os.insert (text ++ ['\n'])).flush)) := by
  refine ⟨objectText W e.pairs, buffer_eq W e, fun os => pack_event_eq W os e, fun os => ?_,
    fun s w msg os hW hos => ?_⟩
  · simp [pack_event_eq]
  · rw [alert_eq s w msg e os hos, hW]

/-- C19: `alert` with any two `msg` arguments, the null pointer included,
returns the same sink and the same world, for every sink, world and
record.  For instance with `msg` "from msg" and a record whose `alt_msg` is
"from record", the text written holds the record's own `alt_msg`. -/
theorem C19_msg_is_ignored :
    (∀ (s : JsonLogger) (w : World) (msg1 msg2 : Option Text) (e : Event),
      s.alert w msg1 e = s.alert w msg2 e) ∧
    (JsonLogger.alert ⟨"stdout".toList, false, .cout⟩ exampleWorld (some "from msg".toList)
        { exampleEvent with alt_msg := some "from record".toList }).map
        (fun r => r.2.cout.device) =
      some ("\x7b\"event_id\":7,\"event_reference\":0,\"ref_time\":1700000000," ++
        "\"alt_msg\":\"from record\"\x7d\n").toList := by
  refine ⟨fun s w msg1 msg2 e => rfl, ?_⟩
  decide

end AlertJson
